import Mathlib

/-!
# Bootloader.c: a shallow embedding and its verified properties

The development follows `src/src/Bootloader.c`: the ACPI root pointer lookup
(`GuidsAreEqual`, `GetRSDP`), the ELF64 kernel loader (`LoadKernel`) and the
handoff sequence (`EfiMain`).  Firmware services are external to the program;
they are represented by a record `Firmware` of the answers the firmware gives,
and every call the program makes is appended to a log, in program order.

Memory is byte addressed.  The local `Header`, the pool buffer `ProgramHeaders`
and physical memory are three regions of their own: a store into one of them
does not change another.  Unsigned 64 bit arithmetic of the source is written
with an explicit reduction modulo 2^64 where the source can overflow.
-/

namespace Bootloader

/-! ## Machine words and byte regions -/

/-- One byte, the source type `u8`. -/
abbrev u8 := Fin 256

/-- The size of the 64 bit machine word (`u64`, `UINTN`). -/
def WORD : Nat := 2 ^ 64

/-- Little endian 16 bit load from a byte region. -/
def rd16 (m : Nat → u8) (a : Nat) : Nat :=
  (m a).val + 256 * (m (a + 1)).val

/-- Little endian 32 bit load from a byte region. -/
def rd32 (m : Nat → u8) (a : Nat) : Nat :=
  rd16 m a + 65536 * rd16 m (a + 2)

/-- Little endian 64 bit load from a byte region. -/
def rd64 (m : Nat → u8) (a : Nat) : Nat :=
  rd32 m a + 4294967296 * rd32 m (a + 4)

/-- Region `m` after the bytes `bs` have been stored from address `base` on. -/
def store (m : Nat → u8) (base : Nat) (bs : List u8) : Nat → u8 :=
  fun a => if base ≤ a ∧ a < base + bs.length then bs.getD (a - base) 0 else m a

/-- Little endian 64 bit store of `v` at address `base`. -/
def wr64 (m : Nat → u8) (base : Nat) (v : Nat) : Nat → u8 :=
  fun a => if base ≤ a ∧ a < base + 8 then Fin.ofNat (v / 256 ^ (a - base)) else m a

/-! ## Firmware status codes

`Bootloader.h` declares `EFI_STATUS` as `UINTN`; the status constants come from
the firmware header `efi/efi.h`, which is not among the sources. -/

/-- The type `EFI_STATUS` of `Bootloader.h`, a 64 bit unsigned word. -/
abbrev EFI_STATUS := Nat

/-- Modelled from the spec: the constant `EFI_SUCCESS` of `efi/efi.h`, with its
UEFI value. -/
def EFI_SUCCESS : EFI_STATUS := 0

/-- Modelled from the spec: the constant `EFI_NOT_FOUND` of `efi/efi.h`, the
reported "not found" status, with its UEFI value (error bit and code 14). -/
def EFI_NOT_FOUND : EFI_STATUS := 2 ^ 63 + 14

/-- Modelled from the spec: the constant `EFI_NOT_STARTED` of `efi/efi.h`, with its
UEFI value (error bit and code 19). -/
def EFI_NOT_STARTED : EFI_STATUS := 2 ^ 63 + 19

/-! ## ACPI root pointer lookup -/

/-- The structure `GUID` of `Bootloader.h`; the array `Data4[8]` is given as its
eight bytes `Data4_0` to `Data4_7`. -/
structure EFI_GUID where
  Data1 : Nat
  Data2 : Nat
  Data3 : Nat
  Data4_0 : Nat
  Data4_1 : Nat
  Data4_2 : Nat
  Data4_3 : Nat
  Data4_4 : Nat
  Data4_5 : Nat
  Data4_6 : Nat
  Data4_7 : Nat
  deriving DecidableEq, Repr

/-- Modelled from the spec: the type `EFI_CONFIGURATION_TABLE`, which `Bootloader.h`
only declares; one entry of the firmware configuration table, with the two
fields `GetRSDP` uses, the identifying tag and the vendor table pointer. -/
structure EFI_CONFIGURATION_TABLE where
  VendorGuid : EFI_GUID
  VendorTable : Nat
  deriving DecidableEq, Repr

/-- Modelled from the spec: the constant `ACPI_20_TABLE_GUID` of `efi/efi.h`, the
modern ACPI root pointer tag, with its UEFI value. -/
def ACPI_20_TABLE_GUID : EFI_GUID :=
  ⟨0x8868e871, 0xe4f1, 0x11d3, 0xbc, 0x22, 0x0, 0x80, 0xc7, 0x3c, 0x88, 0x81⟩

/-- Modelled from the spec: the constant `ACPI_TABLE_GUID` of `efi/efi.h`, the
legacy (ACPI 1.0) root pointer tag, with its UEFI value. -/
def ACPI_TABLE_GUID : EFI_GUID :=
  ⟨0xeb9d2d30, 0x2d88, 0x11d3, 0x9a, 0x16, 0x0, 0x90, 0x27, 0x3f, 0xc1, 0x4d⟩

/-- `GuidsAreEqual`: field by field comparison, the eight bytes of `Data4` one by one. -/
def GuidsAreEqual (Guid1 Guid2 : EFI_GUID) : Bool :=
  Guid1.Data1 == Guid2.Data1 &&
  Guid1.Data2 == Guid2.Data2 &&
  Guid1.Data3 == Guid2.Data3 &&
  Guid1.Data4_0 == Guid2.Data4_0 &&
  Guid1.Data4_1 == Guid2.Data4_1 &&
  Guid1.Data4_2 == Guid2.Data4_2 &&
  Guid1.Data4_3 == Guid2.Data4_3 &&
  Guid1.Data4_4 == Guid2.Data4_4 &&
  Guid1.Data4_5 == Guid2.Data4_5 &&
  Guid1.Data4_6 == Guid2.Data4_6 &&
  Guid1.Data4_7 == Guid2.Data4_7

/-- The loop of `GetRSDP` from the current `Index` on.  `RSDP` is the current
value of `*RSDP`; the list is the part of `ConfigurationTable` from `Index` to
`NumberOfTableEntries`.  The result is the returned status together with the
final value of `*RSDP`. -/
def GetRSDP.scan (RSDP : Nat) : List EFI_CONFIGURATION_TABLE → EFI_STATUS × Nat
  | [] => (EFI_NOT_FOUND, RSDP)
  | Entry :: Rest =>
    if GuidsAreEqual Entry.VendorGuid ACPI_20_TABLE_GUID ||
        GuidsAreEqual Entry.VendorGuid ACPI_TABLE_GUID then
      (EFI_SUCCESS, Entry.VendorTable)
    else GetRSDP.scan RSDP Rest

/-- `GetRSDP`: `*RSDP` is first set to `NULL` (0), then the table is scanned from
index 0. -/
def GetRSDP (ConfigurationTable : List EFI_CONFIGURATION_TABLE) : EFI_STATUS × Nat :=
  GetRSDP.scan 0 ConfigurationTable

/-! ## The firmware and the log of calls -/

/-- The structure `screen_buffer`. -/
structure screen_buffer where
  Width : Nat
  Height : Nat
  PixelsPerScanline : Nat
  Pixels : Nat
  deriving DecidableEq, Repr

/-- The structure `system_info` handed to the kernel.  `MemoryMap` is the address
of the pool buffer, `Time` stands for the `EFI_TIME` value. -/
structure system_info where
  Screen : screen_buffer
  MemoryMap : Nat
  MemoryMapSize : Nat
  MemoryMapDescriptorSize : Nat
  RSDP : Nat
  Time : Nat
  deriving DecidableEq, Repr

/-- Where a `File->Read` call stores the bytes: the local `Header`, the pool
buffer `ProgramHeaders`, or physical memory at the address `Memory`. -/
inductive Target where
  | Header
  | ProgramHeaders
  | Physical (Memory : Nat)
  deriving DecidableEq, Repr

/-- The calls the program makes, with the arguments that matter.  All but the last
are firmware services; `CallWithSystemVAbi` is the transfer of control to the
kernel, its argument given by the `system_info` it points to. -/
inductive Call where
  | OutputString (Text : String)
  | LocateProtocol
  | QueryMode (ModeNumber : Nat)
  | SetMode (ModeNumber : Nat)
  | HandleProtocol
  | OpenVolume
  | Open (Path : String)
  | GetInfo (BufferSize : Nat)
  | AllocatePool (Size : Nat)
  | Read (BufferSize : Nat) (Buffer : Target)
  | SetPosition (Position : Nat)
  | AllocatePages (Memory : Nat) (Pages : Nat)
  | GetMemoryMap (MemoryMapSize : Nat)
  | GetTime
  | ExitBootServices (MapKey : Nat)
  | CallWithSystemVAbi (func : Nat) (arg : system_info)
  deriving DecidableEq, Repr

/-- The answers of the firmware.  `status k` is the status returned by the call
made after `k` earlier calls; a call succeeds when it is `EFI_SUCCESS`.
`file` is the content of `Kernel.elf`.  `stack` and `pool` are what the local
`Header` and the pool buffer `ProgramHeaders` (and the bytes after it) hold
before anything is read into them.  `FileInfoSize` is the size the first
`GetInfo` call reports.  `Mode` is `GraphicsProtocol->Mode->Mode`, absent when
the `Mode` pointer is null; the four fields after it are what is read through
`GraphicsProtocol->Mode`.  `ProbeSize` and `ProbeDescriptorSize` are what the
first `GetMemoryMap` call leaves in `MemoryMapSize` and `DescriptorSize`;
`MapBuffer` is the pointer `AllocatePool` leaves in `UEFIMemoryMap`; `MapSize`,
`MapKey` and `MapDescriptorSize` are what the second `GetMemoryMap` call leaves
in its three variables.  `Time` is the time `GetTime` reports. -/
structure Firmware where
  status : Nat → EFI_STATUS
  file : List u8
  stack : Nat → u8
  pool : Nat → u8
  FileInfoSize : Nat
  ConfigurationTable : List EFI_CONFIGURATION_TABLE
  Mode : Option Nat
  HorizontalResolution : Nat
  VerticalResolution : Nat
  PixelsPerScanLine : Nat
  FrameBufferBase : Nat
  ProbeSize : Nat
  ProbeDescriptorSize : Nat
  MapBuffer : Nat
  MapSize : Nat
  MapKey : Nat
  MapDescriptorSize : Nat
  Time : Nat

/-- The state the program acts on: physical memory, the position of the kernel
file handle, and the log of calls made so far (oldest first). -/
structure Machine where
  mem : Nat → u8
  pos : Nat
  calls : List Call

/-- Append a call to the log. -/
def Machine.log (s : Machine) (c : Call) : Machine :=
  { s with calls := s.calls ++ [c] }

/-- The firmware service `File->Read(File, &BufferSize, Buffer)`, as UEFI defines
it for a file.  On success the firmware delivers the
bytes from the current position, at most `BufferSize` of them and no more than
the file has left, advances the position and sets `BufferSize` to the number
delivered.  On failure nothing is delivered and `BufferSize` is left alone.
The result is the new state, the new `BufferSize` and the bytes delivered; the
caller places them in the buffer it passed. -/
def File.Read (fw : Firmware) (s : Machine) (BufferSize : Nat) (Buffer : Target) :
    Machine × Nat × List u8 :=
  let s1 := s.log (Call.Read BufferSize Buffer)
  if fw.status s.calls.length = EFI_SUCCESS then
    let data := (fw.file.drop s.pos).take BufferSize
    ({ s1 with pos := s.pos + data.length }, data.length, data)
  else (s1, BufferSize, [])

/-- The firmware service `File->SetPosition(File, Position)`: on success the
position is set. -/
def File.SetPosition (fw : Firmware) (s : Machine) (Position : Nat) : Machine :=
  let s1 := s.log (Call.SetPosition Position)
  if fw.status s.calls.length = EFI_SUCCESS then { s1 with pos := Position } else s1

/-! ## ELF64 constants and record layouts

The header `elf/elf.h` is not among the sources.  Its constants and the layouts
of `Elf64_Ehdr` and `Elf64_Phdr` are those of the ELF64 format the spec names:
magic, 64 bit class, little endian order, executable type, x86-64 machine,
current version, and the loadable segment tag. -/

/-- Modelled from the spec: the constant `ELFMAG` of `elf/elf.h`, the four magic
bytes 0x7f and the letters E, L, F. -/
def ELFMAG : Nat → u8 := store (fun _ => 0) 0 [0x7f, 0x45, 0x4c, 0x46]

/-- Modelled from the spec: the constant `EI_CLASS` of `elf/elf.h`, the index of
the class byte in `e_ident`. -/
def EI_CLASS : Nat := 4

/-- Modelled from the spec: the constant `EI_DATA` of `elf/elf.h`, the index of the
byte order byte in `e_ident`. -/
def EI_DATA : Nat := 5

/-- Modelled from the spec: the constant `ELFCLASS64` of `elf/elf.h`. -/
def ELFCLASS64 : Nat := 2

/-- Modelled from the spec: the constant `ELFDATA2LSB` of `elf/elf.h`. -/
def ELFDATA2LSB : Nat := 1

/-- Modelled from the spec: the constant `ET_EXEC` of `elf/elf.h`. -/
def ET_EXEC : Nat := 2

/-- Modelled from the spec: the constant `EM_X86_64` of `elf/elf.h`. -/
def EM_X86_64 : Nat := 62

/-- Modelled from the spec: the constant `EV_CURRENT` of `elf/elf.h`. -/
def EV_CURRENT : Nat := 1

/-- Modelled from the spec: the constant `PT_LOAD` of `elf/elf.h`, the tag of a
loadable segment. -/
def PT_LOAD : Nat := 1

/-- Modelled from the spec: `sizeof(Elf64_Ehdr)`, the type being declared in
`elf/elf.h`. -/
def sizeof_Elf64_Ehdr : Nat := 64

/-- Modelled from the spec: `sizeof(Elf64_Phdr)`, the type being declared in
`elf/elf.h`. -/
def sizeof_Elf64_Phdr : Nat := 56

/-- Modelled from the spec: the field `e_ident[i]` of `Elf64_Ehdr` (bytes 0 to 15). -/
def Elf64_Ehdr.e_ident (Header : Nat → u8) (i : Nat) : Nat := (Header i).val

/-- Modelled from the spec: the field `e_type` of `Elf64_Ehdr` (16 bit, offset 16). -/
def Elf64_Ehdr.e_type (Header : Nat → u8) : Nat := rd16 Header 16

/-- Modelled from the spec: the field `e_machine` of `Elf64_Ehdr` (16 bit, offset 18). -/
def Elf64_Ehdr.e_machine (Header : Nat → u8) : Nat := rd16 Header 18

/-- Modelled from the spec: the field `e_version` of `Elf64_Ehdr` (32 bit, offset 20). -/
def Elf64_Ehdr.e_version (Header : Nat → u8) : Nat := rd32 Header 20

/-- Modelled from the spec: the field `e_entry` of `Elf64_Ehdr` (64 bit, offset 24). -/
def Elf64_Ehdr.e_entry (Header : Nat → u8) : Nat := rd64 Header 24

/-- Modelled from the spec: the field `e_phoff` of `Elf64_Ehdr` (64 bit, offset 32). -/
def Elf64_Ehdr.e_phoff (Header : Nat → u8) : Nat := rd64 Header 32

/-- Modelled from the spec: the field `e_phentsize` of `Elf64_Ehdr` (16 bit, offset 54). -/
def Elf64_Ehdr.e_phentsize (Header : Nat → u8) : Nat := rd16 Header 54

/-- Modelled from the spec: the field `e_phnum` of `Elf64_Ehdr` (16 bit, offset 56). -/
def Elf64_Ehdr.e_phnum (Header : Nat → u8) : Nat := rd16 Header 56

/-- Modelled from the spec: the field `p_type` of the `Elf64_Phdr` at offset `At` of
the buffer (32 bit, offset 0). -/
def Elf64_Phdr.p_type (Buf : Nat → u8) (At : Nat) : Nat := rd32 Buf At

/-- Modelled from the spec: the field `p_offset` of `Elf64_Phdr` (64 bit, offset 8). -/
def Elf64_Phdr.p_offset (Buf : Nat → u8) (At : Nat) : Nat := rd64 Buf (At + 8)

/-- Modelled from the spec: the field `p_paddr` of `Elf64_Phdr` (64 bit, offset 24). -/
def Elf64_Phdr.p_paddr (Buf : Nat → u8) (At : Nat) : Nat := rd64 Buf (At + 24)

/-- Modelled from the spec: the field `p_filesz` of `Elf64_Phdr` (64 bit, offset 32). -/
def Elf64_Phdr.p_filesz (Buf : Nat → u8) (At : Nat) : Nat := rd64 Buf (At + 32)

/-- Modelled from the spec: the field `p_memsz` of `Elf64_Phdr` (64 bit, offset 40). -/
def Elf64_Phdr.p_memsz (Buf : Nat → u8) (At : Nat) : Nat := rd64 Buf (At + 40)

/-! ## LoadKernel -/

/-- The header test of `LoadKernel`: true when the header is rejected. -/
def LoadKernel.rejects (Header : Nat → u8) : Bool :=
  rd32 Header 0 != rd32 ELFMAG 0 ||
  Elf64_Ehdr.e_ident Header EI_CLASS != ELFCLASS64 ||
  Elf64_Ehdr.e_ident Header EI_DATA != ELFDATA2LSB ||
  Elf64_Ehdr.e_type Header != ET_EXEC ||
  Elf64_Ehdr.e_machine Header != EM_X86_64 ||
  Elf64_Ehdr.e_version Header != EV_CURRENT

/-- `Header.e_phnum * Header.e_phentsize` assigned to the `UINTN` variable `Bytes`.
Both operands are 16 bit and are promoted to 32 bit `int`.  A product of 2^31 or
more overflows `int`, which C leaves undefined; the value taken here is the one
two-complement hardware gives (wrap to 32 bits, then sign extension to 64). -/
def LoadKernel.tableSize (e_phnum e_phentsize : Nat) : Nat :=
  if e_phnum * e_phentsize < 2 ^ 31 then e_phnum * e_phentsize
  else e_phnum * e_phentsize + (WORD - 2 ^ 32)

/-- `(ProgramHeader->p_memsz + 0x1000 - 1) / 0x1000` in 64 bit arithmetic. -/
def LoadKernel.PageCount (p_memsz : Nat) : Nat :=
  (p_memsz + 0x1000 - 1) % WORD / 0x1000

/-- The state of the descriptor loop: the machine, the content of the pool buffer
`ProgramHeaders`, and (for observation only) the offsets `At` examined so far. -/
structure Loader where
  m : Machine
  ProgramHeaders : Nat → u8
  examined : List Nat

/-- The body of `case PT_LOAD` for the descriptor at offset `At`.  The pages are
requested at `p_paddr` (`AllocateAddress` leaves `Memory` as it is, whatever the
status), the file is positioned at `p_offset`, and `p_filesz` bytes are read to
`Memory`; the read receives `&ProgramHeader->p_filesz` and so writes the count
delivered back into the descriptor. -/
def LoadKernel.segment (fw : Firmware) (At : Nat) (L : Loader) : Loader :=
  let PageCount := LoadKernel.PageCount (Elf64_Phdr.p_memsz L.ProgramHeaders At)
  let Memory := Elf64_Phdr.p_paddr L.ProgramHeaders At
  let s1 := L.m.log (Call.AllocatePages Memory PageCount)
  let s2 := File.SetPosition fw s1 (Elf64_Phdr.p_offset L.ProgramHeaders At)
  let r := File.Read fw s2 (Elf64_Phdr.p_filesz L.ProgramHeaders At) (Target.Physical Memory)
  { m := { r.1 with mem := store r.1.mem Memory r.2.2 }
    ProgramHeaders := wr64 L.ProgramHeaders (At + 32) r.2.1
    examined := L.examined }

/-- One iteration of the descriptor loop at offset `At`: the `switch` on
`ProgramHeader->p_type`, with `At` recorded as examined. -/
def LoadKernel.body (fw : Firmware) (At : Nat) (L : Loader) : Loader :=
  let L1 : Loader := { L with examined := L.examined ++ [At] }
  if Elf64_Phdr.p_type L.ProgramHeaders At = PT_LOAD then LoadKernel.segment fw At L1 else L1

/-- The loop `for (At = ProgramHeaders; At < ProgramHeaders + Bytes; At += e_phentsize)`,
with `At` as an offset into the buffer.  The first argument bounds the number of
iterations.  The test on offsets is the test of the source on pointers as long
as `ProgramHeaders + Bytes` does not wrap around 2^64, which holds when
`e_phnum * e_phentsize` is below 2^31. -/
def LoadKernel.loop (fw : Firmware) (e_phentsize Bytes : Nat) : Nat → Nat → Loader → Loader
  | 0, _, L => L
  | fuel + 1, At, L =>
    if At < Bytes then
      LoadKernel.loop fw e_phentsize Bytes fuel (At + e_phentsize) (LoadKernel.body fw At L)
    else L

/-- What `LoadKernel` leaves behind: the returned pointer, the machine, and the
offsets the descriptor loop examined. -/
structure Loaded where
  EntryPoint : Nat
  m : Machine
  examined : List Nat

/-- `LoadKernel`.  A null return is 0.  The descriptor loop is given `Bytes`
iterations, the value the table read leaves in `Bytes`: `At` grows by
`e_phentsize` in each iteration, and when `e_phentsize` is 0 so is `Bytes`. -/
def LoadKernel (fw : Firmware) (s : Machine) : Loaded :=
  let s1 := s.log (Call.GetInfo 0)
  let s2 := s1.log (Call.AllocatePool fw.FileInfoSize)
  let s3 := s2.log (Call.GetInfo fw.FileInfoSize)
  let r := File.Read fw s3 sizeof_Elf64_Ehdr Target.Header
  let Header := store fw.stack 0 r.2.2
  if LoadKernel.rejects Header then
    ⟨0, r.1.log (Call.OutputString "Invalid Kernel Format"), []⟩
  else
    let Bytes := LoadKernel.tableSize (Elf64_Ehdr.e_phnum Header) (Elf64_Ehdr.e_phentsize Header)
    let s4 := r.1.log (Call.AllocatePool Bytes)
    let s5 := File.SetPosition fw s4 (Elf64_Ehdr.e_phoff Header)
    let t := File.Read fw s5 Bytes Target.ProgramHeaders
    let L := LoadKernel.loop fw (Elf64_Ehdr.e_phentsize Header) t.2.1 t.2.1 0
      ⟨t.1, store fw.pool 0 t.2.2, []⟩
    ⟨Elf64_Ehdr.e_entry Header, L.m, L.examined⟩

/-- The state in which `LoadKernel`, entered in state `s`, has read the header,
with the byte count and the bytes the read delivered. -/
def LoadKernel.headerRead (fw : Firmware) (s : Machine) : Machine × Nat × List u8 :=
  File.Read fw (((s.log (Call.GetInfo 0)).log (Call.AllocatePool fw.FileInfoSize)).log
    (Call.GetInfo fw.FileInfoSize)) sizeof_Elf64_Ehdr Target.Header

/-- The local `Header` after `File->Read(File, &Bytes, &Header)`. -/
def LoadKernel.Header (fw : Firmware) (s : Machine) : Nat → u8 :=
  store fw.stack 0 (LoadKernel.headerRead fw s).2.2

/-- The value of `Bytes` computed from the header, the size requested for the
pool buffer `ProgramHeaders`. -/
def LoadKernel.Bytes (fw : Firmware) (s : Machine) : Nat :=
  LoadKernel.tableSize (Elf64_Ehdr.e_phnum (LoadKernel.Header fw s))
    (Elf64_Ehdr.e_phentsize (LoadKernel.Header fw s))

/-- The state in which `LoadKernel` has read the program header table, with the
value the read leaves in `Bytes` and the bytes delivered. -/
def LoadKernel.tableRead (fw : Firmware) (s : Machine) : Machine × Nat × List u8 :=
  File.Read fw (File.SetPosition fw ((LoadKernel.headerRead fw s).1.log
    (Call.AllocatePool (LoadKernel.Bytes fw s))) (Elf64_Ehdr.e_phoff (LoadKernel.Header fw s)))
    (LoadKernel.Bytes fw s) Target.ProgramHeaders

/-- The pool buffer `ProgramHeaders` when the descriptor loop is entered. -/
def LoadKernel.table (fw : Firmware) (s : Machine) : Nat → u8 :=
  store fw.pool 0 (LoadKernel.tableRead fw s).2.2

/-! ## EfiMain -/

/-- `GraphicsProtocol->Mode ? GraphicsProtocol->Mode->Mode : 0`. -/
def GetScreenBuffer.CurrentModeIndex (fw : Firmware) : Nat :=
  match fw.Mode with
  | some Mode => Mode
  | none => 0

/-- `GetScreenBuffer`.  The fields read through `GraphicsProtocol->Mode` are the
values the firmware record holds. -/
def GetScreenBuffer (fw : Firmware) (s : Machine) : screen_buffer × Machine :=
  let s1 := s.log Call.LocateProtocol
  if fw.status s.calls.length = EFI_SUCCESS then
    let CurrentModeIndex := GetScreenBuffer.CurrentModeIndex fw
    let s2 := s1.log (Call.QueryMode CurrentModeIndex)
    let s3 := if fw.status s1.calls.length = EFI_NOT_STARTED then s2.log (Call.SetMode 0) else s2
    (⟨fw.HorizontalResolution, fw.VerticalResolution, fw.PixelsPerScanLine, fw.FrameBufferBase⟩, s3)
  else (⟨0, 0, 0, 0⟩, s1)

/-- `LoadFile`: four firmware calls; the handle returned names the file `fw.file`. -/
def LoadFile (Path : String) (s : Machine) : Machine :=
  (((s.log Call.HandleProtocol).log Call.HandleProtocol).log Call.OpenVolume).log (Call.Open Path)

/-- `GetCurrentTime`. -/
def GetCurrentTime (fw : Firmware) (s : Machine) : Nat × Machine :=
  (fw.Time, s.log Call.GetTime)

/-- The byte count `EfiMain` passes to `AllocatePool` for the memory map:
`MemoryMapSize += 2 * DescriptorSize` on `UINTN` values, after the probe has set
`MemoryMapSize` to `S` and `DescriptorSize` to `D`. -/
def EfiMain.MemoryMapRequest (S D : Nat) : Nat :=
  (S + 2 * D % WORD) % WORD

/-- `EfiMain`, started on physical memory `mem`.  The result is the machine at the
point where `CallWithSystemVAbi` has been issued; the source then spins in
`while (1)`.  After a `GetMemoryMap` call the variables it writes hold the
values of the firmware record. -/
def EfiMain (fw : Firmware) (mem : Nat → u8) : Machine :=
  let s0 : Machine := ⟨mem, 0, []⟩
  let s1 := s0.log (Call.OutputString "Hello")
  let g := GetScreenBuffer fw s1
  let RSDP := (GetRSDP fw.ConfigurationTable).2
  let s2 := LoadFile "Kernel.elf" g.2
  let K := LoadKernel fw s2
  let s3 := K.m.log (Call.GetMemoryMap 0)
  let MemoryMapSize := EfiMain.MemoryMapRequest fw.ProbeSize fw.ProbeDescriptorSize
  let s4 := s3.log (Call.AllocatePool MemoryMapSize)
  let s5 := s4.log (Call.GetMemoryMap MemoryMapSize)
  let t := GetCurrentTime fw s5
  let System : system_info :=
    ⟨g.1, fw.MapBuffer, fw.MapSize, fw.MapDescriptorSize, RSDP, t.1⟩
  let s6 := t.2.log (Call.ExitBootServices fw.MapKey)
  s6.log (Call.CallWithSystemVAbi K.EntryPoint System)

/-- An entry carries one of the two ACPI root pointer tags. -/
def IsAcpiEntry (e : EFI_CONFIGURATION_TABLE) : Prop :=
  e.VendorGuid = ACPI_20_TABLE_GUID ∨ e.VendorGuid = ACPI_TABLE_GUID

instance (e : EFI_CONFIGURATION_TABLE) : Decidable (IsAcpiEntry e) :=
  inferInstanceAs (Decidable (_ ∨ _))

/-- The state in which `EfiMain` calls `LoadKernel`. -/
def EfiMain.beforeLoad (fw : Firmware) (mem : Nat → u8) : Machine :=
  LoadFile "Kernel.elf"
    (GetScreenBuffer fw ((⟨mem, 0, []⟩ : Machine).log (Call.OutputString "Hello"))).2

/-- The local `System` of `EfiMain` at the time of the handoff. -/
def EfiMain.System (fw : Firmware) (mem : Nat → u8) : system_info :=
  ⟨(GetScreenBuffer fw ((⟨mem, 0, []⟩ : Machine).log (Call.OutputString "Hello"))).1,
   fw.MapBuffer, fw.MapSize, fw.MapDescriptorSize, (GetRSDP fw.ConfigurationTable).2, fw.Time⟩

/-- The six identity fields of a header all have the expected values. -/
def IdentityMatches (Header : Nat → u8) : Prop :=
  rd32 Header 0 = rd32 ELFMAG 0 ∧
  Elf64_Ehdr.e_ident Header EI_CLASS = ELFCLASS64 ∧
  Elf64_Ehdr.e_ident Header EI_DATA = ELFDATA2LSB ∧
  Elf64_Ehdr.e_type Header = ET_EXEC ∧
  Elf64_Ehdr.e_machine Header = EM_X86_64 ∧
  Elf64_Ehdr.e_version Header = EV_CURRENT

instance (Header : Nat → u8) : Decidable (IdentityMatches Header) :=
  inferInstanceAs (Decidable (_ ∧ _))

/-- At least one of the six identity fields of a header differs from the expected
value. -/
def IdentityDiffers (Header : Nat → u8) : Prop :=
  rd32 Header 0 ≠ rd32 ELFMAG 0 ∨
  Elf64_Ehdr.e_ident Header EI_CLASS ≠ ELFCLASS64 ∨
  Elf64_Ehdr.e_ident Header EI_DATA ≠ ELFDATA2LSB ∨
  Elf64_Ehdr.e_type Header ≠ ET_EXEC ∨
  Elf64_Ehdr.e_machine Header ≠ EM_X86_64 ∨
  Elf64_Ehdr.e_version Header ≠ EV_CURRENT

instance (Header : Nat → u8) : Decidable (IdentityDiffers Header) :=
  inferInstanceAs (Decidable (_ ∨ _))

/-! ## Observations on the log -/

/-- The page allocations requested in a log, as pairs (address, page count), in
order. -/
def allocations : List Call → List (Nat × Nat)
  | [] => []
  | Call.AllocatePages Memory Pages :: cs => (Memory, Pages) :: allocations cs
  | _ :: cs => allocations cs

/-- The firmware services, that is every call but the transfer of control. -/
def Call.isFirmwareService : Call → Bool
  | Call.CallWithSystemVAbi _ _ => false
  | _ => true

/-- The calls that belong to the handoff: `ExitBootServices` and the transfer of
control. -/
def Call.isHandoff : Call → Bool
  | Call.ExitBootServices _ => true
  | Call.CallWithSystemVAbi _ _ => true
  | _ => false

/-- The calls `LoadKernel` issues for one loadable segment. -/
def Call.isSegmentCall : Call → Bool
  | Call.AllocatePages _ _ => true
  | Call.SetPosition _ => true
  | Call.Read _ (Target.Physical _) => true
  | _ => false

/-- The kinds of call `LoadKernel` can issue. -/
def Call.isLoaderCall : Call → Bool
  | Call.GetInfo _ => true
  | Call.AllocatePool _ => true
  | Call.Read _ _ => true
  | Call.SetPosition _ => true
  | Call.AllocatePages _ _ => true
  | Call.OutputString _ => true
  | _ => false

/-- The calls that can occur before the memory map is captured: every kind but
`GetMemoryMap`, `GetTime`, `ExitBootServices` and the transfer of control. -/
def Call.isEarly : Call → Bool
  | Call.GetMemoryMap _ => false
  | Call.GetTime => false
  | Call.ExitBootServices _ => false
  | Call.CallWithSystemVAbi _ _ => false
  | _ => true

/-- The calls one iteration of the descriptor loop issues when the buffer holds
`Buf` and the descriptor is the one at offset `At`. -/
def descriptorCalls (Buf : Nat → u8) (At : Nat) : List Call :=
  if Elf64_Phdr.p_type Buf At = PT_LOAD then
    [Call.AllocatePages (Elf64_Phdr.p_paddr Buf At)
        (LoadKernel.PageCount (Elf64_Phdr.p_memsz Buf At)),
     Call.SetPosition (Elf64_Phdr.p_offset Buf At),
     Call.Read (Elf64_Phdr.p_filesz Buf At) (Target.Physical (Elf64_Phdr.p_paddr Buf At))]
  else []

/-- The offsets `At`, `At + stride`, `At + 2 * stride`, ... that lie below `Bytes`. -/
def offsets (stride Bytes At : Nat) : List Nat :=
  (List.range ((Bytes - At + stride - 1) / stride)).map (fun i => At + i * stride)

/-- The number of bytes the read of the program header table leaves in `Bytes`:
the bound of the descriptor loop. -/
def LoadKernel.Delivered (fw : Firmware) (s : Machine) : Nat :=
  (LoadKernel.tableRead fw s).2.1

/-- The number of offsets 0, stride, 2 * stride, ... below `Bytes`. -/
def iterations (stride Bytes : Nat) : Nat :=
  (Bytes + stride - 1) / stride

/-- The call is a read into physical memory whose requested range
`[Memory, Memory + BufferSize)` contains the address `a`. -/
def Call.readsOnto (a : Nat) : Call → Bool
  | Call.Read BufferSize (Target.Physical Memory) => decide (Memory ≤ a ∧ a < Memory + BufferSize)
  | _ => false

/-- The bytes the read of `case PT_LOAD` delivers for the descriptor at `At`. -/
def LoadKernel.segmentData (fw : Firmware) (At : Nat) (L : Loader) : List u8 :=
  (File.Read fw
    (File.SetPosition fw
      (L.m.log (Call.AllocatePages (Elf64_Phdr.p_paddr L.ProgramHeaders At)
        (LoadKernel.PageCount (Elf64_Phdr.p_memsz L.ProgramHeaders At))))
      (Elf64_Phdr.p_offset L.ProgramHeaders At))
    (Elf64_Phdr.p_filesz L.ProgramHeaders At)
    (Target.Physical (Elf64_Phdr.p_paddr L.ProgramHeaders At))).2.2

/-! ## Sample inputs -/

/-- The `n` low bytes of `v`, least significant first. -/
def leBytes : Nat → Nat → List u8
  | 0, _ => []
  | n + 1, v => Fin.ofNat v :: leBytes n (v / 256)

/-- The 64 bytes of an ELF64 header that passes the identity checks. -/
def sampleHeader (e_entry e_phoff e_phentsize e_phnum : Nat) : List u8 :=
  [0x7f, 0x45, 0x4c, 0x46, 2, 1, 1, 0, 0, 0, 0, 0, 0, 0, 0, 0] ++
  leBytes 2 ET_EXEC ++ leBytes 2 EM_X86_64 ++ leBytes 4 EV_CURRENT ++
  leBytes 8 e_entry ++ leBytes 8 e_phoff ++ leBytes 8 0 ++ leBytes 4 0 ++
  leBytes 2 64 ++ leBytes 2 e_phentsize ++ leBytes 2 e_phnum ++
  leBytes 2 0 ++ leBytes 2 0 ++ leBytes 2 0

/-- The 56 bytes of a program header. -/
def sampleDescriptor (p_type p_offset p_paddr p_filesz p_memsz : Nat) : List u8 :=
  leBytes 4 p_type ++ leBytes 4 0 ++ leBytes 8 p_offset ++ leBytes 8 0 ++
  leBytes 8 p_paddr ++ leBytes 8 p_filesz ++ leBytes 8 p_memsz ++ leBytes 8 0

/-- A firmware with the given statuses and kernel file; buffers start zeroed. -/
def sampleFirmware (status : Nat → EFI_STATUS) (file : List u8) : Firmware :=
  { status := status
    file := file
    stack := fun _ => 0
    pool := fun _ => 0
    FileInfoSize := 104
    ConfigurationTable := []
    Mode := some 0
    HorizontalResolution := 1024
    VerticalResolution := 768
    PixelsPerScanLine := 1024
    FrameBufferBase := 0x80000000
    ProbeSize := 4800
    ProbeDescriptorSize := 48
    MapBuffer := 0x7000000
    MapSize := 4848
    MapKey := 7
    MapDescriptorSize := 48
    Time := 0 }

/-- Physical memory in which every byte holds 0xAA. -/
def dirtyMemory : Nat → u8 := fun _ => 0xAA

/-- The minimal kernel: one loadable segment of one page at 0x100000, which is
also the entry address; the segment content is at file offset 0x1000. -/
def minimalKernel : List u8 :=
  sampleHeader 0x100000 64 56 1 ++ sampleDescriptor PT_LOAD 0x1000 0x100000 0x1000 0x1000 ++
  List.replicate 3976 0 ++ List.replicate 0x1000 0x90

/-- A kernel file whose header is right except for `e_machine`, which is 3
(`EM_386`). -/
def wrongMachineKernel : List u8 :=
  (sampleHeader 0x100000 64 56 1).set 18 3 ++ sampleDescriptor PT_LOAD 0x1000 0x100000 0x1000 0x1000

/-- A small kernel: one loadable segment at 0x100000 with four bytes in the file
(at offset 120) and eight bytes in memory. -/
def smallKernel : List u8 :=
  sampleHeader 0x100000 64 56 1 ++ sampleDescriptor PT_LOAD 120 0x100000 4 8 ++ [1, 2, 3, 4]

/-- The statuses of a firmware that fails exactly the call made after `k` others. -/
def failingAt (k : Nat) : Nat → EFI_STATUS :=
  fun i => if i = k then EFI_NOT_FOUND else EFI_SUCCESS

/-- A firmware whose memory map probe reports the size 2^64 - 1 and the stride 1. -/
def wrappingFirmware : Firmware :=
  { sampleFirmware (fun _ => EFI_SUCCESS) smallKernel with
    ProbeSize := 2 ^ 64 - 1
    ProbeDescriptorSize := 1 }

/-- A kernel file that ends after its header: the header passes validation and
declares one program header of 56 bytes at offset 64, which the file lacks. -/
def truncatedKernel : List u8 :=
  sampleHeader 0x100000 64 56 1

/-- A kernel with three program headers of stride 64: a loadable segment, a
descriptor of type 4, and a second loadable segment. -/
def threeEntryKernel : List u8 :=
  sampleHeader 0x100000 64 64 3 ++
  sampleDescriptor PT_LOAD 256 0x100000 4 0x1800 ++ List.replicate 8 0 ++
  sampleDescriptor 4 0 0 0 0 ++ List.replicate 8 0 ++
  sampleDescriptor PT_LOAD 260 0x200000 2 2 ++ List.replicate 8 0 ++
  [1, 2, 3, 4, 5, 6]

/-- A kernel whose one loadable segment has four bytes in the file and a memory
size of zero. -/
def fileOnlyKernel : List u8 :=
  sampleHeader 0x100000 64 56 1 ++ sampleDescriptor PT_LOAD 120 0x100000 4 0 ++ [1, 2, 3, 4]

/-- The loop state in which the buffer holds the one descriptor of `smallKernel`
and memory is dirty. -/
def sampleLoader : Loader :=
  ⟨⟨dirtyMemory, 0, []⟩, store (fun _ => 0) 0 (sampleDescriptor PT_LOAD 120 0x100000 4 8), []⟩

/-- A table whose first tagged entry is at index 2, after two untagged entries. -/
def sampleTable : List EFI_CONFIGURATION_TABLE :=
  [⟨⟨1, 2, 3, 0, 0, 0, 0, 0, 0, 0, 0⟩, 0x1000⟩,
   ⟨⟨0x8868e871, 0xe4f1, 0x11d3, 0xbc, 0x22, 0x0, 0x80, 0xc7, 0x3c, 0x88, 0x80⟩, 0x2000⟩,
   ⟨ACPI_TABLE_GUID, 0x3000⟩,
   ⟨ACPI_20_TABLE_GUID, 0x4000⟩]

/-! # Verified properties -/

/-! ## Properties of the ACPI lookup -/

theorem GuidsAreEqual_iff (a b : EFI_GUID) : GuidsAreEqual a b = true ↔ a = b := by
  cases a; cases b
  simp only [GuidsAreEqual, Bool.and_eq_true, beq_iff_eq, EFI_GUID.mk.injEq, and_assoc]

theorem scan_cond_iff (e : EFI_CONFIGURATION_TABLE) :
    (GuidsAreEqual e.VendorGuid ACPI_20_TABLE_GUID ||
      GuidsAreEqual e.VendorGuid ACPI_TABLE_GUID) = true ↔ IsAcpiEntry e := by
  simp only [Bool.or_eq_true, GuidsAreEqual_iff, IsAcpiEntry]

theorem scan_none (R : Nat) (T : List EFI_CONFIGURATION_TABLE)
    (h : ∀ e ∈ T, ¬ IsAcpiEntry e) : GetRSDP.scan R T = (EFI_NOT_FOUND, R) := by
  induction T with
  | nil => rfl
  | cons e rest ih =>
    have he : ¬ IsAcpiEntry e := h e (List.mem_cons_self _ _)
    have hc := (scan_cond_iff e).not.mpr he
    simp only [GetRSDP.scan, hc]
    exact ih (fun x hx => h x (List.mem_cons_of_mem _ hx))

theorem scan_first (R : Nat) (T : List EFI_CONFIGURATION_TABLE) (i : Nat) (hi : i < T.length)
    (hm : IsAcpiEntry (T.get ⟨i, hi⟩))
    (hlow : ∀ j (hj : j < i), ¬ IsAcpiEntry (T.get ⟨j, Nat.lt_trans hj hi⟩)) :
    GetRSDP.scan R T = (EFI_SUCCESS, (T.get ⟨i, hi⟩).VendorTable) := by
  induction T generalizing i with
  | nil => exact absurd hi (Nat.not_lt_zero _)
  | cons e rest ih =>
    cases i with
    | zero =>
      have hc := (scan_cond_iff e).mpr hm
      simp only [GetRSDP.scan, hc]
      rfl
    | succ k =>
      have he : ¬ IsAcpiEntry e := hlow 0 (Nat.succ_pos k)
      have hc := (scan_cond_iff e).not.mpr he
      simp only [GetRSDP.scan, hc]
      have hk : k < rest.length := Nat.lt_of_succ_lt_succ hi
      exact ih k hk hm (fun j hj => hlow (j + 1) (Nat.succ_lt_succ hj))

/-- C5: for every configuration table, `GetRSDP` returns `EFI_SUCCESS` with the
`VendorTable` of the lowest index entry tagged with the ACPI 2.0 or the ACPI 1.0
GUID; a table [legacy, modern] gives the legacy pointer and [modern, legacy] the
modern one; when no entry is tagged it returns `EFI_NOT_FOUND` and `*RSDP` is
null. -/
theorem GetRSDP_first_match (T : List EFI_CONFIGURATION_TABLE) :
    (∀ i (hi : i < T.length), IsAcpiEntry (T.get ⟨i, hi⟩) →
      (∀ j (hj : j < i), ¬ IsAcpiEntry (T.get ⟨j, Nat.lt_trans hj hi⟩)) →
      GetRSDP T = (EFI_SUCCESS, (T.get ⟨i, hi⟩).VendorTable)) ∧
    ((∀ e ∈ T, ¬ IsAcpiEntry e) → GetRSDP T = (EFI_NOT_FOUND, 0)) ∧
    (∀ legacy modern : Nat,
      GetRSDP [⟨ACPI_TABLE_GUID, legacy⟩, ⟨ACPI_20_TABLE_GUID, modern⟩] = (EFI_SUCCESS, legacy) ∧
      GetRSDP [⟨ACPI_20_TABLE_GUID, modern⟩, ⟨ACPI_TABLE_GUID, legacy⟩] = (EFI_SUCCESS, modern)) := by
  refine ⟨fun i hi hm hlow => scan_first 0 T i hi hm hlow, fun h => scan_none 0 T h, ?_⟩
  intro legacy modern
  constructor
  · exact scan_first 0 _ 0 (by simp) (Or.inr rfl) (fun j hj => absurd hj (Nat.not_lt_zero _))
  · exact scan_first 0 _ 0 (by simp) (Or.inl rfl) (fun j hj => absurd hj (Nat.not_lt_zero _))

theorem GetRSDP_first_match_witness :
    GetRSDP sampleTable = (EFI_SUCCESS, 0x3000) ∧
    GetRSDP (sampleTable.take 2) = (EFI_NOT_FOUND, 0) :=
  ⟨(GetRSDP_first_match sampleTable).1 2 (by decide) (by decide) (by decide),
   (GetRSDP_first_match (sampleTable.take 2)).2.1 (by decide)⟩

/-! ## The log of LoadKernel -/

theorem log_calls (s : Machine) (c : Call) : (s.log c).calls = s.calls ++ [c] := rfl

theorem log_mem (s : Machine) (c : Call) : (s.log c).mem = s.mem := rfl

theorem log_pos (s : Machine) (c : Call) : (s.log c).pos = s.pos := rfl

theorem Read_calls (fw : Firmware) (s : Machine) (n : Nat) (b : Target) :
    (File.Read fw s n b).1.calls = s.calls ++ [Call.Read n b] := by
  unfold File.Read
  split <;> rfl

theorem Read_mem (fw : Firmware) (s : Machine) (n : Nat) (b : Target) :
    (File.Read fw s n b).1.mem = s.mem := by
  unfold File.Read
  split <;> rfl

theorem Read_length_le (fw : Firmware) (s : Machine) (n : Nat) (b : Target) :
    (File.Read fw s n b).2.2.length ≤ n := by
  unfold File.Read
  split
  · simp only [List.length_take]
    exact Nat.min_le_left _ _
  · exact Nat.zero_le _

theorem Read_size_le (fw : Firmware) (s : Machine) (n : Nat) (b : Target) :
    (File.Read fw s n b).2.1 ≤ n := by
  unfold File.Read
  split
  · simp only [List.length_take]
    exact Nat.min_le_left _ _
  · exact Nat.le_refl _

theorem SetPosition_calls (fw : Firmware) (s : Machine) (p : Nat) :
    (File.SetPosition fw s p).calls = s.calls ++ [Call.SetPosition p] := by
  unfold File.SetPosition
  split <;> rfl

theorem SetPosition_mem (fw : Firmware) (s : Machine) (p : Nat) :
    (File.SetPosition fw s p).mem = s.mem := by
  unfold File.SetPosition
  split <;> rfl

theorem Read_data (fw : Firmware) (s : Machine) (n : Nat) (b : Target)
    (h : fw.status s.calls.length = EFI_SUCCESS) :
    (File.Read fw s n b).2.2 = (fw.file.drop s.pos).take n := by
  unfold File.Read
  rw [if_pos h]

theorem SetPosition_pos (fw : Firmware) (s : Machine) (p : Nat)
    (h : fw.status s.calls.length = EFI_SUCCESS) : (File.SetPosition fw s p).pos = p := by
  unfold File.SetPosition
  rw [if_pos h]

/-- The three calls issued for a loadable segment. -/
theorem segment_calls (fw : Firmware) (At : Nat) (L : Loader) :
    (LoadKernel.segment fw At L).m.calls = L.m.calls ++
      [Call.AllocatePages (Elf64_Phdr.p_paddr L.ProgramHeaders At)
          (LoadKernel.PageCount (Elf64_Phdr.p_memsz L.ProgramHeaders At)),
       Call.SetPosition (Elf64_Phdr.p_offset L.ProgramHeaders At),
       Call.Read (Elf64_Phdr.p_filesz L.ProgramHeaders At)
          (Target.Physical (Elf64_Phdr.p_paddr L.ProgramHeaders At))] := by
  simp only [LoadKernel.segment, Read_calls, SetPosition_calls, log_calls, List.append_assoc,
    List.singleton_append, List.cons_append, List.nil_append]

theorem segment_examined (fw : Firmware) (At : Nat) (L : Loader) :
    (LoadKernel.segment fw At L).examined = L.examined := rfl

theorem loop_zero (fw : Firmware) (stride Bytes At : Nat) (L : Loader) :
    LoadKernel.loop fw stride Bytes 0 At L = L := rfl

theorem loop_succ (fw : Firmware) (stride Bytes fuel At : Nat) (L : Loader) :
    LoadKernel.loop fw stride Bytes (fuel + 1) At L =
      if At < Bytes then
        LoadKernel.loop fw stride Bytes fuel (At + stride) (LoadKernel.body fw At L)
      else L := rfl

/-- The two branches of `LoadKernel`. -/
theorem LoadKernel_eq (fw : Firmware) (s : Machine) :
    LoadKernel fw s =
      if LoadKernel.rejects (LoadKernel.Header fw s) then
        ⟨0, (LoadKernel.headerRead fw s).1.log (Call.OutputString "Invalid Kernel Format"), []⟩
      else
        ⟨Elf64_Ehdr.e_entry (LoadKernel.Header fw s),
         (LoadKernel.loop fw (Elf64_Ehdr.e_phentsize (LoadKernel.Header fw s))
            (LoadKernel.tableRead fw s).2.1 (LoadKernel.tableRead fw s).2.1 0
            ⟨(LoadKernel.tableRead fw s).1, LoadKernel.table fw s, []⟩).m,
         (LoadKernel.loop fw (Elf64_Ehdr.e_phentsize (LoadKernel.Header fw s))
            (LoadKernel.tableRead fw s).2.1 (LoadKernel.tableRead fw s).2.1 0
            ⟨(LoadKernel.tableRead fw s).1, LoadKernel.table fw s, []⟩).examined⟩ := rfl

theorem headerRead_calls (fw : Firmware) (s : Machine) :
    (LoadKernel.headerRead fw s).1.calls = s.calls ++
      [Call.GetInfo 0, Call.AllocatePool fw.FileInfoSize, Call.GetInfo fw.FileInfoSize,
       Call.Read sizeof_Elf64_Ehdr Target.Header] := by
  simp only [LoadKernel.headerRead, Read_calls, log_calls, List.append_assoc,
    List.singleton_append, List.cons_append, List.nil_append]

theorem tableRead_calls (fw : Firmware) (s : Machine) :
    (LoadKernel.tableRead fw s).1.calls = (LoadKernel.headerRead fw s).1.calls ++
      [Call.AllocatePool (LoadKernel.Bytes fw s),
       Call.SetPosition (Elf64_Ehdr.e_phoff (LoadKernel.Header fw s)),
       Call.Read (LoadKernel.Bytes fw s) Target.ProgramHeaders] := by
  simp only [LoadKernel.tableRead, Read_calls, SetPosition_calls, log_calls, List.append_assoc,
    List.singleton_append, List.cons_append, List.nil_append]

theorem body_calls (fw : Firmware) (At : Nat) (L : Loader) :
    (LoadKernel.body fw At L).m.calls = L.m.calls ++ descriptorCalls L.ProgramHeaders At := by
  unfold LoadKernel.body descriptorCalls
  by_cases h : Elf64_Phdr.p_type L.ProgramHeaders At = PT_LOAD
  · simp only [h, if_true, segment_calls]
  · simp only [h, if_false, List.append_nil]

theorem descriptorCalls_segment (Buf : Nat → u8) (At : Nat) :
    ∀ c ∈ descriptorCalls Buf At, c.isSegmentCall = true := by
  intro c hc
  unfold descriptorCalls at hc
  split at hc
  · simp only [List.mem_cons, List.mem_singleton, List.not_mem_nil, or_false] at hc
    rcases hc with rfl | rfl | rfl <;> rfl
  · exact absurd hc (List.not_mem_nil _)

/-- The descriptor loop only appends segment calls to the log. -/
theorem loop_calls (fw : Firmware) (stride Bytes fuel : Nat) :
    ∀ (At : Nat) (L : Loader), ∃ ext : List Call,
      (LoadKernel.loop fw stride Bytes fuel At L).m.calls = L.m.calls ++ ext ∧
      ∀ c ∈ ext, c.isSegmentCall = true := by
  induction fuel with
  | zero => intro At L; exact ⟨[], by simp [loop_zero], by simp⟩
  | succ n ih =>
    intro At L
    rw [loop_succ]
    by_cases hlt : At < Bytes
    · simp only [hlt, if_true]
      obtain ⟨ext, h1, h2⟩ := ih (At + stride) (LoadKernel.body fw At L)
      refine ⟨descriptorCalls L.ProgramHeaders At ++ ext, ?_, ?_⟩
      · rw [h1, body_calls, List.append_assoc]
      · intro c hc
        rcases List.mem_append.mp hc with hc | hc
        · exact descriptorCalls_segment _ _ c hc
        · exact h2 c hc
    · simp only [hlt, if_false]
      exact ⟨[], by simp, by simp⟩

theorem isLoaderCall_of_isSegmentCall (c : Call) (h : c.isSegmentCall = true) :
    c.isLoaderCall = true := by
  cases c <;> first | rfl | exact absurd h (by simp [Call.isSegmentCall])

/-- The calls `LoadKernel` adds to the log are loader calls. -/
theorem LoadKernel_calls (fw : Firmware) (s : Machine) : ∃ ext : List Call,
    (LoadKernel fw s).m.calls = s.calls ++ ext ∧ ∀ c ∈ ext, c.isLoaderCall = true := by
  rw [LoadKernel_eq]
  by_cases hr : LoadKernel.rejects (LoadKernel.Header fw s) = true
  · simp only [hr, if_true, log_calls, headerRead_calls, List.append_assoc]
    refine ⟨_, rfl, ?_⟩
    intro c hc
    simp only [List.cons_append, List.nil_append, List.mem_cons, List.mem_singleton,
      List.not_mem_nil, or_false] at hc
    rcases hc with rfl | rfl | rfl | rfl | rfl <;> rfl
  · simp only [hr]
    obtain ⟨ext, h1, h2⟩ := loop_calls fw (Elf64_Ehdr.e_phentsize (LoadKernel.Header fw s))
      (LoadKernel.tableRead fw s).2.1 (LoadKernel.tableRead fw s).2.1 0
      ⟨(LoadKernel.tableRead fw s).1, LoadKernel.table fw s, []⟩
    simp only [Bool.false_eq_true, if_false]
    rw [h1]
    simp only [tableRead_calls, headerRead_calls, List.append_assoc]
    refine ⟨_, rfl, ?_⟩
    intro c hc
    simp only [List.cons_append, List.nil_append, List.mem_cons, List.mem_append] at hc
    rcases hc with rfl | rfl | rfl | rfl | rfl | rfl | rfl | hc
    · rfl
    · rfl
    · rfl
    · rfl
    · rfl
    · rfl
    · rfl
    · exact isLoaderCall_of_isSegmentCall c (h2 c hc)

theorem rejects_iff (Header : Nat → u8) :
    LoadKernel.rejects Header = true ↔ IdentityDiffers Header := by
  simp only [LoadKernel.rejects, IdentityDiffers, Bool.or_eq_true, bne_iff_ne, ne_eq, or_assoc]

theorem rejects_false_iff (Header : Nat → u8) :
    LoadKernel.rejects Header = false ↔ IdentityMatches Header := by
  rw [← Bool.not_eq_true, rejects_iff]
  unfold IdentityDiffers IdentityMatches
  tauto

/-- C1: when at least one of the six identity fields of the header read from the
kernel file (magic, class, byte order, object type, machine, version) differs
from its expected constant, `LoadKernel` returns null, the calls it makes are
the five listed, and none of them is an `AllocatePages` call. -/
theorem LoadKernel_invalid_format (fw : Firmware) (s : Machine)
    (h : IdentityDiffers (LoadKernel.Header fw s)) :
    (LoadKernel fw s).EntryPoint = 0 ∧
    (LoadKernel fw s).m.calls = s.calls ++
      [Call.GetInfo 0, Call.AllocatePool fw.FileInfoSize, Call.GetInfo fw.FileInfoSize,
       Call.Read sizeof_Elf64_Ehdr Target.Header, Call.OutputString "Invalid Kernel Format"] ∧
    allocations ((LoadKernel fw s).m.calls.drop s.calls.length) = [] := by
  have hr := (rejects_iff _).mpr h
  have hc : (LoadKernel fw s).m.calls = s.calls ++
      [Call.GetInfo 0, Call.AllocatePool fw.FileInfoSize, Call.GetInfo fw.FileInfoSize,
       Call.Read sizeof_Elf64_Ehdr Target.Header, Call.OutputString "Invalid Kernel Format"] := by
    rw [LoadKernel_eq]
    simp only [hr, if_true, log_calls, headerRead_calls, List.append_assoc, List.cons_append,
      List.nil_append]
  refine ⟨?_, hc, ?_⟩
  · rw [LoadKernel_eq]
    simp only [hr, if_true]
  · rw [hc, List.drop_left]
    rfl

theorem LoadKernel_invalid_format_witness :
    (LoadKernel (sampleFirmware (fun _ => 0) wrongMachineKernel) ⟨dirtyMemory, 0, []⟩).EntryPoint = 0 ∧
    allocations ((LoadKernel (sampleFirmware (fun _ => 0) wrongMachineKernel)
      ⟨dirtyMemory, 0, []⟩).m.calls.drop 0) = [] :=
  ⟨(LoadKernel_invalid_format (sampleFirmware (fun _ => 0) wrongMachineKernel)
      ⟨dirtyMemory, 0, []⟩ (by decide)).1,
   (LoadKernel_invalid_format (sampleFirmware (fun _ => 0) wrongMachineKernel)
      ⟨dirtyMemory, 0, []⟩ (by decide)).2.2⟩

/-- C4: when the header read from the kernel file passes the six identity checks,
`LoadKernel` returns its `e_entry`, whatever the program header table holds and
whatever the firmware answers, also when the descriptor loop loads nothing; for
the minimal one segment kernel with `e_entry = p_paddr` the value returned is the
address of the one page allocation and of the segment read. -/
theorem LoadKernel_returns_entry :
    (∀ (fw : Firmware) (s : Machine), IdentityMatches (LoadKernel.Header fw s) →
      (LoadKernel fw s).EntryPoint = Elf64_Ehdr.e_entry (LoadKernel.Header fw s)) ∧
    ((LoadKernel (sampleFirmware (fun _ => EFI_SUCCESS) minimalKernel)
        ⟨dirtyMemory, 0, []⟩).EntryPoint = 0x100000 ∧
      (LoadKernel (sampleFirmware (fun _ => EFI_SUCCESS) minimalKernel)
        ⟨dirtyMemory, 0, []⟩).m.calls =
        [Call.GetInfo 0, Call.AllocatePool 104, Call.GetInfo 104,
         Call.Read 64 Target.Header, Call.AllocatePool 56, Call.SetPosition 64,
         Call.Read 56 Target.ProgramHeaders, Call.AllocatePages 0x100000 1,
         Call.SetPosition 0x1000, Call.Read 0x1000 (Target.Physical 0x100000)]) := by
  constructor
  · intro fw s h
    have hr := (rejects_false_iff _).mpr h
    rw [LoadKernel_eq]
    simp only [hr, Bool.false_eq_true, if_false]
  · exact ⟨by decide, by decide⟩

theorem LoadKernel_returns_entry_witness :
    (LoadKernel (sampleFirmware (fun _ => EFI_SUCCESS) (sampleHeader 0x200000 64 56 0))
      ⟨dirtyMemory, 0, []⟩).EntryPoint =
    Elf64_Ehdr.e_entry (LoadKernel.Header (sampleFirmware (fun _ => EFI_SUCCESS)
      (sampleHeader 0x200000 64 56 0)) ⟨dirtyMemory, 0, []⟩) :=
  LoadKernel_returns_entry.1 (sampleFirmware (fun _ => EFI_SUCCESS)
    (sampleHeader 0x200000 64 56 0)) ⟨dirtyMemory, 0, []⟩ (by decide)

/-! ## The handoff sequence of EfiMain -/

theorem GetScreenBuffer_calls (fw : Firmware) (s : Machine) : ∃ ext : List Call,
    (GetScreenBuffer fw s).2.calls = s.calls ++ ext ∧ ∀ c ∈ ext, c.isEarly = true := by
  unfold GetScreenBuffer
  dsimp only
  split_ifs with h1 h2
  · refine ⟨[Call.LocateProtocol, Call.QueryMode (GetScreenBuffer.CurrentModeIndex fw),
      Call.SetMode 0], ?_, ?_⟩
    · simp only [log_calls, List.append_assoc, List.cons_append, List.nil_append]
    · intro c hc
      simp only [List.mem_cons, List.mem_singleton, List.not_mem_nil, or_false] at hc
      rcases hc with rfl | rfl | rfl <;> rfl
  · refine ⟨[Call.LocateProtocol, Call.QueryMode (GetScreenBuffer.CurrentModeIndex fw)], ?_, ?_⟩
    · simp only [log_calls, List.append_assoc, List.cons_append, List.nil_append]
    · intro c hc
      simp only [List.mem_cons, List.mem_singleton, List.not_mem_nil, or_false] at hc
      rcases hc with rfl | rfl <;> rfl
  · refine ⟨[Call.LocateProtocol], rfl, ?_⟩
    intro c hc
    simp only [List.mem_singleton] at hc
    subst hc
    rfl

theorem isEarly_of_isLoaderCall (c : Call) (h : c.isLoaderCall = true) : c.isEarly = true := by
  cases c <;> first | rfl | exact absurd h (by simp [Call.isLoaderCall])

theorem beforeLoad_calls (fw : Firmware) (mem : Nat → u8) :
    ∀ c ∈ (EfiMain.beforeLoad fw mem).calls, c.isEarly = true := by
  obtain ⟨ext, h1, h2⟩ := GetScreenBuffer_calls fw
    ((⟨mem, 0, []⟩ : Machine).log (Call.OutputString "Hello"))
  intro c hc
  simp only [EfiMain.beforeLoad, LoadFile, log_calls, h1, List.nil_append, List.append_assoc,
    List.cons_append, List.mem_cons, List.mem_append, List.mem_singleton, List.not_mem_nil,
    or_false] at hc
  rcases hc with rfl | hc | rfl | rfl | rfl | rfl
  · rfl
  · exact h2 c hc
  · rfl
  · rfl
  · rfl
  · rfl

/-- Everything `EfiMain` has called when `LoadKernel` returns is an early call. -/
theorem loaded_calls (fw : Firmware) (mem : Nat → u8) :
    ∀ c ∈ (LoadKernel fw (EfiMain.beforeLoad fw mem)).m.calls, c.isEarly = true := by
  obtain ⟨ext, h1, h2⟩ := LoadKernel_calls fw (EfiMain.beforeLoad fw mem)
  intro c hc
  rw [h1] at hc
  rcases List.mem_append.mp hc with hc | hc
  · exact beforeLoad_calls fw mem c hc
  · exact isEarly_of_isLoaderCall c (h2 c hc)

/-- The log of `EfiMain`: the calls up to the return of `LoadKernel`, then the six
calls of the handoff sequence. -/
theorem EfiMain_calls (fw : Firmware) (mem : Nat → u8) :
    (EfiMain fw mem).calls = (LoadKernel fw (EfiMain.beforeLoad fw mem)).m.calls ++
      [Call.GetMemoryMap 0,
       Call.AllocatePool (EfiMain.MemoryMapRequest fw.ProbeSize fw.ProbeDescriptorSize),
       Call.GetMemoryMap (EfiMain.MemoryMapRequest fw.ProbeSize fw.ProbeDescriptorSize),
       Call.GetTime,
       Call.ExitBootServices fw.MapKey,
       Call.CallWithSystemVAbi (LoadKernel fw (EfiMain.beforeLoad fw mem)).EntryPoint
         (EfiMain.System fw mem)] := by
  simp only [EfiMain, GetCurrentTime, log_calls, List.append_assoc, List.cons_append,
    List.nil_append, EfiMain.beforeLoad, EfiMain.System]

theorem isEarly_firmware (c : Call) (h : c.isEarly = true) :
    c.isFirmwareService = true ∧ c.isHandoff = false := by
  cases c <;> first | exact ⟨rfl, rfl⟩ | exact absurd h (by simp [Call.isEarly])

theorem MemoryMapRequest_exact (S D : Nat) (h : S + 2 * D < WORD) :
    EfiMain.MemoryMapRequest S D = S + 2 * D := by
  unfold EfiMain.MemoryMapRequest
  have h2 : 2 * D < WORD := by omega
  rw [Nat.mod_eq_of_lt h2, Nat.mod_eq_of_lt h]

/-- C7: in every run of `EfiMain` the log ends with `ExitBootServices` followed by
the transfer of control to the pointer `LoadKernel` returned, with the address of
`System` as argument; every call before the two is a firmware service other
than `ExitBootServices`.  So `ExitBootServices` is called once and no firmware
service is called after it. -/
theorem EfiMain_exit_then_transfer (fw : Firmware) (mem : Nat → u8) :
    ∃ before : List Call,
      (EfiMain fw mem).calls = before ++
        [Call.ExitBootServices fw.MapKey,
         Call.CallWithSystemVAbi (LoadKernel fw (EfiMain.beforeLoad fw mem)).EntryPoint
           (EfiMain.System fw mem)] ∧
      ∀ c ∈ before, c.isFirmwareService = true ∧ c.isHandoff = false := by
  refine ⟨(LoadKernel fw (EfiMain.beforeLoad fw mem)).m.calls ++
      [Call.GetMemoryMap 0,
       Call.AllocatePool (EfiMain.MemoryMapRequest fw.ProbeSize fw.ProbeDescriptorSize),
       Call.GetMemoryMap (EfiMain.MemoryMapRequest fw.ProbeSize fw.ProbeDescriptorSize),
       Call.GetTime], ?_, ?_⟩
  · rw [EfiMain_calls]
    simp only [List.append_assoc, List.cons_append, List.nil_append]
  · intro c hc
    rcases List.mem_append.mp hc with hc | hc
    · exact isEarly_firmware c (loaded_calls fw mem c hc)
    · simp only [List.mem_cons, List.mem_singleton, List.not_mem_nil, or_false] at hc
      rcases hc with rfl | rfl | rfl | rfl <;> exact ⟨rfl, rfl⟩

/-- C6 (counterexample): the small kernel passes validation.  In a first run the
firmware fails the read of its one segment (the call made after 16 others):
the byte at the entry address still holds 0xAA, nothing of the kernel is
loaded, yet the run goes on to `ExitBootServices` and transfers control to the
entry address.  In a second run the page allocation fails (the call made after
14 others) and the run hands off all the same. -/
theorem EfiMain_hands_off_after_failed_load :
    ((sampleFirmware (failingAt 16) smallKernel).status 16 ≠ EFI_SUCCESS ∧
      (EfiMain (sampleFirmware (failingAt 16) smallKernel) dirtyMemory).mem 0x100000 = 0xAA ∧
      (EfiMain (sampleFirmware (failingAt 16) smallKernel) dirtyMemory).calls =
        [Call.OutputString "Hello", Call.LocateProtocol, Call.QueryMode 0,
         Call.HandleProtocol, Call.HandleProtocol, Call.OpenVolume, Call.Open "Kernel.elf",
         Call.GetInfo 0, Call.AllocatePool 104, Call.GetInfo 104,
         Call.Read 64 Target.Header, Call.AllocatePool 56, Call.SetPosition 64,
         Call.Read 56 Target.ProgramHeaders, Call.AllocatePages 0x100000 1,
         Call.SetPosition 120, Call.Read 4 (Target.Physical 0x100000),
         Call.GetMemoryMap 0, Call.AllocatePool 4896, Call.GetMemoryMap 4896, Call.GetTime,
         Call.ExitBootServices 7,
         Call.CallWithSystemVAbi 0x100000
           ⟨⟨1024, 768, 1024, 0x80000000⟩, 0x7000000, 4848, 48, 0, 0⟩]) ∧
    ((sampleFirmware (failingAt 14) smallKernel).status 14 ≠ EFI_SUCCESS ∧
      (EfiMain (sampleFirmware (failingAt 14) smallKernel) dirtyMemory).calls =
        [Call.OutputString "Hello", Call.LocateProtocol, Call.QueryMode 0,
         Call.HandleProtocol, Call.HandleProtocol, Call.OpenVolume, Call.Open "Kernel.elf",
         Call.GetInfo 0, Call.AllocatePool 104, Call.GetInfo 104,
         Call.Read 64 Target.Header, Call.AllocatePool 56, Call.SetPosition 64,
         Call.Read 56 Target.ProgramHeaders, Call.AllocatePages 0x100000 1,
         Call.SetPosition 120, Call.Read 4 (Target.Physical 0x100000),
         Call.GetMemoryMap 0, Call.AllocatePool 4896, Call.GetMemoryMap 4896, Call.GetTime,
         Call.ExitBootServices 7,
         Call.CallWithSystemVAbi 0x100000
           ⟨⟨1024, 768, 1024, 0x80000000⟩, 0x7000000, 4848, 48, 0, 0⟩]) := by
  refine ⟨⟨by decide, by decide, by decide⟩, by decide, by decide⟩

/-- C6 (amended): when the header read from the kernel file passes the identity
checks, every run of `EfiMain` ends with `ExitBootServices` followed by the
transfer of control to `e_entry`, whatever statuses the firmware returned for
the reads and page allocations of the load: no status stops the run. -/
theorem EfiMain_hands_off_whatever_the_statuses (fw : Firmware) (mem : Nat → u8)
    (h : IdentityMatches (LoadKernel.Header fw (EfiMain.beforeLoad fw mem))) :
    ∃ before : List Call,
      (EfiMain fw mem).calls = before ++
        [Call.ExitBootServices fw.MapKey,
         Call.CallWithSystemVAbi
           (Elf64_Ehdr.e_entry (LoadKernel.Header fw (EfiMain.beforeLoad fw mem)))
           (EfiMain.System fw mem)] := by
  have he : (LoadKernel fw (EfiMain.beforeLoad fw mem)).EntryPoint =
      Elf64_Ehdr.e_entry (LoadKernel.Header fw (EfiMain.beforeLoad fw mem)) := by
    have hr := (rejects_false_iff _).mpr h
    rw [LoadKernel_eq]
    simp only [hr, Bool.false_eq_true, if_false]
  refine ⟨(LoadKernel fw (EfiMain.beforeLoad fw mem)).m.calls ++
      [Call.GetMemoryMap 0,
       Call.AllocatePool (EfiMain.MemoryMapRequest fw.ProbeSize fw.ProbeDescriptorSize),
       Call.GetMemoryMap (EfiMain.MemoryMapRequest fw.ProbeSize fw.ProbeDescriptorSize),
       Call.GetTime], ?_⟩
  rw [EfiMain_calls, he]
  simp only [List.append_assoc, List.cons_append, List.nil_append]

theorem EfiMain_hands_off_whatever_the_statuses_witness :
    ∃ before : List Call,
      (EfiMain (sampleFirmware (failingAt 13) smallKernel) dirtyMemory).calls = before ++
        [Call.ExitBootServices (sampleFirmware (failingAt 13) smallKernel).MapKey,
         Call.CallWithSystemVAbi
           (Elf64_Ehdr.e_entry (LoadKernel.Header (sampleFirmware (failingAt 13) smallKernel)
             (EfiMain.beforeLoad (sampleFirmware (failingAt 13) smallKernel) dirtyMemory)))
           (EfiMain.System (sampleFirmware (failingAt 13) smallKernel) dirtyMemory)] :=
  EfiMain_hands_off_whatever_the_statuses (sampleFirmware (failingAt 13) smallKernel)
    dirtyMemory (by decide)

/-- C8 (counterexample): the probe reports the size 2^64 - 1 and the stride 1; the
byte count passed to `AllocatePool` for the memory map is 1, below size plus
twice the stride. -/
theorem MemoryMapRequest_wraps :
    (EfiMain wrappingFirmware dirtyMemory).calls =
      [Call.OutputString "Hello", Call.LocateProtocol, Call.QueryMode 0,
       Call.HandleProtocol, Call.HandleProtocol, Call.OpenVolume, Call.Open "Kernel.elf",
       Call.GetInfo 0, Call.AllocatePool 104, Call.GetInfo 104,
       Call.Read 64 Target.Header, Call.AllocatePool 56, Call.SetPosition 64,
       Call.Read 56 Target.ProgramHeaders, Call.AllocatePages 0x100000 1,
       Call.SetPosition 120, Call.Read 4 (Target.Physical 0x100000),
       Call.GetMemoryMap 0, Call.AllocatePool 1, Call.GetMemoryMap 1, Call.GetTime,
       Call.ExitBootServices 7,
       Call.CallWithSystemVAbi 0x100000
         ⟨⟨1024, 768, 1024, 0x80000000⟩, 0x7000000, 4848, 48, 0, 0⟩] ∧
    ¬ (wrappingFirmware.ProbeSize + 2 * wrappingFirmware.ProbeDescriptorSize ≤ 1) := by
  constructor
  · decide
  · decide

/-- C8 (amended): when the size S and the stride D reported by the probe satisfy
S + 2 * D < 2^64, the one `AllocatePool` call that follows the probe (the first
`GetMemoryMap` call of the run) asks for exactly S + 2 * D bytes. -/
theorem MemoryMapRequest_covers_probe (fw : Firmware) (mem : Nat → u8)
    (h : fw.ProbeSize + 2 * fw.ProbeDescriptorSize < 2 ^ 64) :
    ∃ (before after : List Call),
      (EfiMain fw mem).calls = before ++
        Call.GetMemoryMap 0 ::
        Call.AllocatePool (fw.ProbeSize + 2 * fw.ProbeDescriptorSize) :: after ∧
      ∀ c ∈ before, ∀ n, c ≠ Call.GetMemoryMap n := by
  refine ⟨(LoadKernel fw (EfiMain.beforeLoad fw mem)).m.calls,
    [Call.GetMemoryMap (fw.ProbeSize + 2 * fw.ProbeDescriptorSize), Call.GetTime,
     Call.ExitBootServices fw.MapKey,
     Call.CallWithSystemVAbi (LoadKernel fw (EfiMain.beforeLoad fw mem)).EntryPoint
       (EfiMain.System fw mem)], ?_, ?_⟩
  · rw [EfiMain_calls, MemoryMapRequest_exact _ _ h]
  · intro c hc n hn
    have := loaded_calls fw mem c hc
    rw [hn] at this
    exact absurd this (by simp [Call.isEarly])

theorem MemoryMapRequest_covers_probe_witness :
    ∃ (before after : List Call),
      (EfiMain (sampleFirmware (fun _ => EFI_SUCCESS) smallKernel) dirtyMemory).calls = before ++
        Call.GetMemoryMap 0 :: Call.AllocatePool (4800 + 2 * 48) :: after ∧
      ∀ c ∈ before, ∀ n, c ≠ Call.GetMemoryMap n :=
  MemoryMapRequest_covers_probe (sampleFirmware (fun _ => EFI_SUCCESS) smallKernel) dirtyMemory
    (by decide)

/-! ## The descriptor loop -/

theorem offsets_done (stride Bytes At : Nat) (hs : 0 < stride) (h : Bytes ≤ At) :
    offsets stride Bytes At = [] := by
  unfold offsets
  have h0 : Bytes - At = 0 := Nat.sub_eq_zero_of_le h
  have h1 : (Bytes - At + stride - 1) / stride = 0 := by
    rw [h0, Nat.zero_add]
    exact Nat.div_eq_of_lt (Nat.sub_lt hs Nat.one_pos)
  rw [h1]
  rfl

theorem offsets_count_step (stride Bytes At : Nat) (hs : 0 < stride) (h : At < Bytes) :
    (Bytes - At + stride - 1) / stride = (Bytes - (At + stride) + stride - 1) / stride + 1 := by
  by_cases hd : stride ≤ Bytes - At
  · have e1 : Bytes - At + stride - 1 = (Bytes - At - 1) + stride := by omega
    have e2 : Bytes - (At + stride) + stride - 1 = Bytes - At - 1 := by omega
    rw [e1, e2, Nat.add_div_right _ hs]
  · have e1 : Bytes - At + stride - 1 = (Bytes - At - 1) + stride := by omega
    have e2 : Bytes - (At + stride) + stride - 1 = stride - 1 := by omega
    rw [e1, e2, Nat.add_div_right _ hs, Nat.div_eq_of_lt (by omega : Bytes - At - 1 < stride),
      Nat.div_eq_of_lt (by omega : stride - 1 < stride)]

theorem offsets_step (stride Bytes At : Nat) (hs : 0 < stride) (h : At < Bytes) :
    offsets stride Bytes At = At :: offsets stride Bytes (At + stride) := by
  unfold offsets
  rw [offsets_count_step stride Bytes At hs h, List.range_succ_eq_map, List.map_cons,
    List.map_map]
  congr 1
  · simp
  · apply List.map_congr_left
    intro i _
    simp only [Function.comp, Nat.succ_eq_add_one]
    rw [Nat.add_mul]
    omega

theorem body_examined (fw : Firmware) (At : Nat) (L : Loader) :
    (LoadKernel.body fw At L).examined = L.examined ++ [At] := by
  unfold LoadKernel.body
  dsimp only
  split <;> rfl

/-- The offsets the descriptor loop examines, given enough iterations. -/
theorem loop_examined (fw : Firmware) (stride Bytes : Nat) (hs : 0 < stride) (fuel : Nat) :
    ∀ (At : Nat) (L : Loader), Bytes - At ≤ fuel →
      (LoadKernel.loop fw stride Bytes fuel At L).examined =
        L.examined ++ offsets stride Bytes At := by
  induction fuel with
  | zero =>
    intro At L hf
    rw [loop_zero, offsets_done stride Bytes At hs (by omega), List.append_nil]
  | succ n ih =>
    intro At L hf
    rw [loop_succ]
    by_cases hlt : At < Bytes
    · rw [if_pos hlt, ih (At + stride) _ (by omega), body_examined,
        offsets_step stride Bytes At hs hlt, List.append_assoc]
      rfl
    · rw [if_neg hlt, offsets_done stride Bytes At hs (by omega), List.append_nil]

theorem offsets_zero (stride Bytes : Nat) :
    offsets stride Bytes 0 = (List.range (iterations stride Bytes)).map (fun i => i * stride) := by
  unfold offsets iterations
  rw [Nat.sub_zero]
  apply List.map_congr_left
  intro i _
  exact Nat.zero_add _

theorem iterations_exact (stride k : Nat) (hs : 0 < stride) :
    iterations stride (k * stride) = k := by
  unfold iterations
  have e : k * stride + stride - 1 = stride - 1 + stride * k := by
    rw [Nat.mul_comm]
    omega
  rw [e, Nat.add_mul_div_left _ _ hs, Nat.div_eq_of_lt (by omega : stride - 1 < stride),
    Nat.zero_add]

theorem tableSize_zero (n e : Nat) (h : n * e = 0) : LoadKernel.tableSize n e = 0 := by
  unfold LoadKernel.tableSize
  rw [h]
  rfl

theorem tableSize_exact (n e : Nat) (h : n * e < 2 ^ 31) : LoadKernel.tableSize n e = n * e := by
  unfold LoadKernel.tableSize
  rw [if_pos h]

theorem Delivered_le (fw : Firmware) (s : Machine) :
    LoadKernel.Delivered fw s ≤ LoadKernel.Bytes fw s :=
  Read_size_le _ _ _ _

/-- The log of `LoadKernel` for an accepted header, up to the descriptor loop. -/
theorem LoadKernel_accepted (fw : Firmware) (s : Machine)
    (h : IdentityMatches (LoadKernel.Header fw s)) :
    (LoadKernel fw s).examined =
      (LoadKernel.loop fw (Elf64_Ehdr.e_phentsize (LoadKernel.Header fw s))
        (LoadKernel.Delivered fw s) (LoadKernel.Delivered fw s) 0
        ⟨(LoadKernel.tableRead fw s).1, LoadKernel.table fw s, []⟩).examined ∧
    (LoadKernel fw s).m =
      (LoadKernel.loop fw (Elf64_Ehdr.e_phentsize (LoadKernel.Header fw s))
        (LoadKernel.Delivered fw s) (LoadKernel.Delivered fw s) 0
        ⟨(LoadKernel.tableRead fw s).1, LoadKernel.table fw s, []⟩).m := by
  have hr := (rejects_false_iff _).mpr h
  rw [LoadKernel_eq]
  simp only [hr, Bool.false_eq_true, if_false, LoadKernel.Delivered, and_self]

/-- The calls made before the descriptor loop is entered. -/
theorem tableRead_calls_full (fw : Firmware) (s : Machine) :
    (LoadKernel.tableRead fw s).1.calls = s.calls ++
      [Call.GetInfo 0, Call.AllocatePool fw.FileInfoSize, Call.GetInfo fw.FileInfoSize,
       Call.Read sizeof_Elf64_Ehdr Target.Header,
       Call.AllocatePool (LoadKernel.Bytes fw s),
       Call.SetPosition (Elf64_Ehdr.e_phoff (LoadKernel.Header fw s)),
       Call.Read (LoadKernel.Bytes fw s) Target.ProgramHeaders] := by
  rw [tableRead_calls, headerRead_calls, List.append_assoc]
  rfl

theorem LoadKernel_examined (fw : Firmware) (s : Machine)
    (h : IdentityMatches (LoadKernel.Header fw s)) :
    (LoadKernel fw s).examined =
      (List.range (iterations (Elf64_Ehdr.e_phentsize (LoadKernel.Header fw s))
        (LoadKernel.Delivered fw s))).map
        (fun i => i * Elf64_Ehdr.e_phentsize (LoadKernel.Header fw s)) := by
  rw [(LoadKernel_accepted fw s h).1]
  by_cases hs : 0 < Elf64_Ehdr.e_phentsize (LoadKernel.Header fw s)
  · rw [loop_examined fw _ _ hs _ 0 _ (by omega), List.nil_append, offsets_zero]
  · have h0 : Elf64_Ehdr.e_phentsize (LoadKernel.Header fw s) = 0 := by omega
    have hB : LoadKernel.Bytes fw s = 0 := by
      unfold LoadKernel.Bytes
      exact tableSize_zero _ _ (by rw [h0, Nat.mul_zero])
    have hD : LoadKernel.Delivered fw s = 0 := by
      have := Delivered_le fw s
      omega
    rw [hD, loop_zero, h0]
    rfl

theorem store_inside (m : Nat → u8) (base : Nat) (bs : List u8) (a : Nat)
    (h1 : base ≤ a) (h2 : a < base + bs.length) : store m base bs a = bs.getD (a - base) 0 := by
  unfold store
  rw [if_pos ⟨h1, h2⟩]

theorem store_outside (m : Nat → u8) (base : Nat) (bs : List u8) (a : Nat)
    (h : a < base ∨ base + bs.length ≤ a) : store m base bs a = m a := by
  unfold store
  rw [if_neg (by omega)]

/-- When the file holds the whole table and the firmware carries out the seek and
the read, the read delivers all of `Bytes` and the buffer holds the bytes of
the file from `e_phoff` on. -/
theorem table_from_file (fw : Firmware) (s : Machine)
    (hseek : fw.status (s.calls.length + 5) = EFI_SUCCESS)
    (hread : fw.status (s.calls.length + 6) = EFI_SUCCESS)
    (hfile : Elf64_Ehdr.e_phoff (LoadKernel.Header fw s) + LoadKernel.Bytes fw s
      ≤ fw.file.length) :
    LoadKernel.Delivered fw s = LoadKernel.Bytes fw s ∧
    ∀ a, a < LoadKernel.Bytes fw s → LoadKernel.table fw s a =
      fw.file.getD (Elf64_Ehdr.e_phoff (LoadKernel.Header fw s) + a) 0 := by
  have hlen : ((LoadKernel.headerRead fw s).1.log
      (Call.AllocatePool (LoadKernel.Bytes fw s))).calls.length = s.calls.length + 5 := by
    rw [log_calls, headerRead_calls]
    simp
  have hpos : (File.SetPosition fw ((LoadKernel.headerRead fw s).1.log
      (Call.AllocatePool (LoadKernel.Bytes fw s)))
      (Elf64_Ehdr.e_phoff (LoadKernel.Header fw s))).pos =
      Elf64_Ehdr.e_phoff (LoadKernel.Header fw s) := by
    unfold File.SetPosition
    rw [hlen, if_pos hseek]
  have hlen2 : (File.SetPosition fw ((LoadKernel.headerRead fw s).1.log
      (Call.AllocatePool (LoadKernel.Bytes fw s)))
      (Elf64_Ehdr.e_phoff (LoadKernel.Header fw s))).calls.length = s.calls.length + 6 := by
    rw [SetPosition_calls, List.length_append, hlen]
    rfl
  have hdata : (LoadKernel.tableRead fw s).2.2 =
      (fw.file.drop (Elf64_Ehdr.e_phoff (LoadKernel.Header fw s))).take
        (LoadKernel.Bytes fw s) := by
    unfold LoadKernel.tableRead File.Read
    rw [hlen2, if_pos hread, hpos]
  have hsize : LoadKernel.Delivered fw s = (LoadKernel.tableRead fw s).2.2.length := by
    unfold LoadKernel.Delivered LoadKernel.tableRead File.Read
    rw [hlen2, if_pos hread]
  have hl : (LoadKernel.tableRead fw s).2.2.length = LoadKernel.Bytes fw s := by
    rw [hdata, List.length_take, List.length_drop]
    omega
  refine ⟨by rw [hsize, hl], ?_⟩
  intro a ha
  unfold LoadKernel.table
  rw [store_inside _ _ _ _ (Nat.zero_le _) (by omega), Nat.sub_zero, hdata]
  simp only [List.getD_eq_getElem?_getD, List.getElem?_take, List.getElem?_drop, ha, if_true]

/-- C10 (counterexample): the truncated kernel has a header that passes validation
with `e_phnum = 1` and `e_phentsize = 56`, but the read of the table delivers no
byte, and the descriptor loop examines no descriptor. -/
theorem LoadKernel_truncated_table_examines_none :
    IdentityMatches (LoadKernel.Header (sampleFirmware (fun _ => EFI_SUCCESS) truncatedKernel)
      ⟨dirtyMemory, 0, []⟩) ∧
    Elf64_Ehdr.e_phnum (LoadKernel.Header (sampleFirmware (fun _ => EFI_SUCCESS) truncatedKernel)
      ⟨dirtyMemory, 0, []⟩) = 1 ∧
    Elf64_Ehdr.e_phentsize (LoadKernel.Header (sampleFirmware (fun _ => EFI_SUCCESS)
      truncatedKernel) ⟨dirtyMemory, 0, []⟩) = 56 ∧
    (LoadKernel (sampleFirmware (fun _ => EFI_SUCCESS) truncatedKernel)
      ⟨dirtyMemory, 0, []⟩).examined = [] := by
  refine ⟨by decide, by decide, by decide, by decide⟩

/-- C10 (amended): for a header that passes validation, with `n = e_phnum` and
`e = e_phentsize`: when `n * e < 2^31` the pool buffer is requested with exactly
`n * e` bytes and the table read asks for as many; the descriptor loop examines
the offsets `i * e` for `i` below `ceil(B / e)`, where `B` is the byte count the
table read leaves in `Bytes`; these are the `n` offsets `0, e, ..., (n - 1) * e`
when `e > 0` and `B = n * e`, which is the case when the file holds the whole
table and the seek and the read succeed; there are none when `n * e = 0`. -/
theorem LoadKernel_descriptor_stride (fw : Firmware) (s : Machine)
    (h : IdentityMatches (LoadKernel.Header fw s)) :
    (Elf64_Ehdr.e_phnum (LoadKernel.Header fw s) * Elf64_Ehdr.e_phentsize (LoadKernel.Header fw s)
        < 2 ^ 31 →
      ∃ rest, (LoadKernel fw s).m.calls = s.calls ++
        [Call.GetInfo 0, Call.AllocatePool fw.FileInfoSize, Call.GetInfo fw.FileInfoSize,
         Call.Read sizeof_Elf64_Ehdr Target.Header,
         Call.AllocatePool (Elf64_Ehdr.e_phnum (LoadKernel.Header fw s) *
           Elf64_Ehdr.e_phentsize (LoadKernel.Header fw s)),
         Call.SetPosition (Elf64_Ehdr.e_phoff (LoadKernel.Header fw s)),
         Call.Read (Elf64_Ehdr.e_phnum (LoadKernel.Header fw s) *
           Elf64_Ehdr.e_phentsize (LoadKernel.Header fw s)) Target.ProgramHeaders] ++ rest) ∧
    (LoadKernel fw s).examined =
      (List.range (iterations (Elf64_Ehdr.e_phentsize (LoadKernel.Header fw s))
        (LoadKernel.Delivered fw s))).map
        (fun i => i * Elf64_Ehdr.e_phentsize (LoadKernel.Header fw s)) ∧
    (0 < Elf64_Ehdr.e_phentsize (LoadKernel.Header fw s) →
      LoadKernel.Delivered fw s = Elf64_Ehdr.e_phnum (LoadKernel.Header fw s) *
        Elf64_Ehdr.e_phentsize (LoadKernel.Header fw s) →
      (LoadKernel fw s).examined =
        (List.range (Elf64_Ehdr.e_phnum (LoadKernel.Header fw s))).map
          (fun i => i * Elf64_Ehdr.e_phentsize (LoadKernel.Header fw s))) ∧
    (Elf64_Ehdr.e_phnum (LoadKernel.Header fw s) * Elf64_Ehdr.e_phentsize (LoadKernel.Header fw s)
        < 2 ^ 31 →
      fw.status (s.calls.length + 5) = EFI_SUCCESS →
      fw.status (s.calls.length + 6) = EFI_SUCCESS →
      Elf64_Ehdr.e_phoff (LoadKernel.Header fw s) +
        Elf64_Ehdr.e_phnum (LoadKernel.Header fw s) *
          Elf64_Ehdr.e_phentsize (LoadKernel.Header fw s) ≤ fw.file.length →
      LoadKernel.Delivered fw s = Elf64_Ehdr.e_phnum (LoadKernel.Header fw s) *
        Elf64_Ehdr.e_phentsize (LoadKernel.Header fw s)) ∧
    (Elf64_Ehdr.e_phnum (LoadKernel.Header fw s) * Elf64_Ehdr.e_phentsize (LoadKernel.Header fw s)
        = 0 → (LoadKernel fw s).examined = []) := by
  have hex := LoadKernel_examined fw s h
  refine ⟨?_, hex, ?_, ?_, ?_⟩
  · intro hp
    obtain ⟨ext, h1, _⟩ := loop_calls fw (Elf64_Ehdr.e_phentsize (LoadKernel.Header fw s))
      (LoadKernel.Delivered fw s) (LoadKernel.Delivered fw s) 0
      ⟨(LoadKernel.tableRead fw s).1, LoadKernel.table fw s, []⟩
    refine ⟨ext, ?_⟩
    rw [(LoadKernel_accepted fw s h).2, h1, tableRead_calls_full]
    unfold LoadKernel.Bytes
    rw [tableSize_exact _ _ hp]
  · intro hs hB
    rw [hex, hB, iterations_exact _ _ hs]
  · intro hp hseek hread hfile
    have hB : LoadKernel.Bytes fw s = Elf64_Ehdr.e_phnum (LoadKernel.Header fw s) *
        Elf64_Ehdr.e_phentsize (LoadKernel.Header fw s) := tableSize_exact _ _ hp
    rw [← hB] at hfile ⊢
    exact (table_from_file fw s hseek hread hfile).1
  · intro h0
    have hB : LoadKernel.Bytes fw s = 0 := tableSize_zero _ _ h0
    have hD : LoadKernel.Delivered fw s = 0 := by
      have := Delivered_le fw s
      omega
    rw [hex, hD]
    unfold iterations
    by_cases hz : Elf64_Ehdr.e_phentsize (LoadKernel.Header fw s) = 0
    · rw [hz]
      rfl
    · rw [Nat.zero_add, Nat.div_eq_of_lt (by omega)]
      rfl

theorem LoadKernel_descriptor_stride_witness :
    (LoadKernel (sampleFirmware (fun _ => EFI_SUCCESS) threeEntryKernel)
      ⟨dirtyMemory, 0, []⟩).examined =
    (List.range (iterations (Elf64_Ehdr.e_phentsize (LoadKernel.Header
        (sampleFirmware (fun _ => EFI_SUCCESS) threeEntryKernel) ⟨dirtyMemory, 0, []⟩))
      (LoadKernel.Delivered (sampleFirmware (fun _ => EFI_SUCCESS) threeEntryKernel)
        ⟨dirtyMemory, 0, []⟩))).map
      (fun i => i * Elf64_Ehdr.e_phentsize (LoadKernel.Header
        (sampleFirmware (fun _ => EFI_SUCCESS) threeEntryKernel) ⟨dirtyMemory, 0, []⟩)) :=
  (LoadKernel_descriptor_stride (sampleFirmware (fun _ => EFI_SUCCESS) threeEntryKernel)
    ⟨dirtyMemory, 0, []⟩ (by decide)).2.1

/-! ## Page allocations -/

theorem PageCount_ceil (x : Nat) (h : x + 4095 < 2 ^ 64) :
    LoadKernel.PageCount x = (x + 4095) / 4096 ∧
    x ≤ 4096 * LoadKernel.PageCount x ∧ 4096 * LoadKernel.PageCount x < x + 4096 := by
  have e : LoadKernel.PageCount x = (x + 4095) / 4096 := by
    unfold LoadKernel.PageCount WORD
    rw [Nat.mod_eq_of_lt (by omega)]
    rfl
  rw [e]
  refine ⟨rfl, ?_, ?_⟩ <;> omega

theorem segment_mem (fw : Firmware) (At : Nat) (L : Loader) :
    (LoadKernel.segment fw At L).m.mem =
      store L.m.mem (Elf64_Phdr.p_paddr L.ProgramHeaders At) (LoadKernel.segmentData fw At L) := by
  unfold LoadKernel.segment LoadKernel.segmentData
  dsimp only
  rw [Read_mem, SetPosition_mem, log_mem]

theorem segmentData_length (fw : Firmware) (At : Nat) (L : Loader) :
    (LoadKernel.segmentData fw At L).length ≤ Elf64_Phdr.p_filesz L.ProgramHeaders At :=
  Read_length_le _ _ _ _

theorem segment_frame (fw : Firmware) (At : Nat) (L : Loader) (a : Nat)
    (h : a < Elf64_Phdr.p_paddr L.ProgramHeaders At ∨
      Elf64_Phdr.p_paddr L.ProgramHeaders At + Elf64_Phdr.p_filesz L.ProgramHeaders At ≤ a) :
    (LoadKernel.segment fw At L).m.mem a = L.m.mem a := by
  rw [segment_mem]
  have := segmentData_length fw At L
  exact store_outside _ _ _ _ (by omega)

theorem body_frame (fw : Firmware) (At : Nat) (L : Loader) (a : Nat)
    (h : ∀ c ∈ descriptorCalls L.ProgramHeaders At, c.readsOnto a = false) :
    (LoadKernel.body fw At L).m.mem a = L.m.mem a := by
  unfold LoadKernel.body
  dsimp only
  by_cases hx : Elf64_Phdr.p_type L.ProgramHeaders At = PT_LOAD
  · rw [if_pos hx]
    have hr := h (Call.Read (Elf64_Phdr.p_filesz L.ProgramHeaders At)
      (Target.Physical (Elf64_Phdr.p_paddr L.ProgramHeaders At))) (by
        unfold descriptorCalls
        rw [if_pos hx]
        simp)
    simp only [Call.readsOnto, decide_eq_false_iff_not] at hr
    exact segment_frame fw At { L with examined := L.examined ++ [At] } a (by
      show a < Elf64_Phdr.p_paddr L.ProgramHeaders At ∨
        Elf64_Phdr.p_paddr L.ProgramHeaders At + Elf64_Phdr.p_filesz L.ProgramHeaders At ≤ a
      omega)
  · rw [if_neg hx]

/-- The descriptor loop changes a byte of memory only if one of its segment reads
was directed onto it. -/
theorem loop_frame (fw : Firmware) (stride Bytes : Nat) (a : Nat) (fuel : Nat) :
    ∀ (At : Nat) (L : Loader), ∃ ext : List Call,
      (LoadKernel.loop fw stride Bytes fuel At L).m.calls = L.m.calls ++ ext ∧
      ((∀ c ∈ ext, c.readsOnto a = false) →
        (LoadKernel.loop fw stride Bytes fuel At L).m.mem a = L.m.mem a) := by
  induction fuel with
  | zero => intro At L; exact ⟨[], by simp [loop_zero], fun _ => rfl⟩
  | succ n ih =>
    intro At L
    rw [loop_succ]
    by_cases hlt : At < Bytes
    · rw [if_pos hlt]
      obtain ⟨ext, h1, h2⟩ := ih (At + stride) (LoadKernel.body fw At L)
      refine ⟨descriptorCalls L.ProgramHeaders At ++ ext, ?_, ?_⟩
      · rw [h1, body_calls, List.append_assoc]
      · intro hall
        rw [h2 (fun c hc => hall c (List.mem_append_right _ hc))]
        exact body_frame fw At L a (fun c hc => hall c (List.mem_append_left _ hc))
    · rw [if_neg hlt]
      exact ⟨[], by simp, fun _ => rfl⟩

theorem tableRead_mem (fw : Firmware) (s : Machine) : (LoadKernel.tableRead fw s).1.mem = s.mem := by
  unfold LoadKernel.tableRead LoadKernel.headerRead
  rw [Read_mem, SetPosition_mem, log_mem, Read_mem, log_mem, log_mem, log_mem]

theorem headerRead_mem (fw : Firmware) (s : Machine) : (LoadKernel.headerRead fw s).1.mem = s.mem := by
  unfold LoadKernel.headerRead
  rw [Read_mem, log_mem, log_mem, log_mem]

theorem LoadKernel_frame (fw : Firmware) (s : Machine) (a : Nat)
    (h : ((LoadKernel fw s).m.calls.drop s.calls.length).any (Call.readsOnto a) = false) :
    (LoadKernel fw s).m.mem a = s.mem a := by
  by_cases hr : LoadKernel.rejects (LoadKernel.Header fw s) = true
  · rw [LoadKernel_eq]
    simp only [hr, if_true, log_mem, headerRead_mem]
  · have hm := (rejects_false_iff _).mp (by simpa using hr)
    obtain ⟨ext, h1, h2⟩ := loop_frame fw (Elf64_Ehdr.e_phentsize (LoadKernel.Header fw s))
      (LoadKernel.Delivered fw s) a (LoadKernel.Delivered fw s) 0
      ⟨(LoadKernel.tableRead fw s).1, LoadKernel.table fw s, []⟩
    rw [(LoadKernel_accepted fw s hm).2] at h ⊢
    rw [h1, tableRead_calls_full, List.append_assoc, List.drop_left] at h
    rw [h2, tableRead_mem]
    intro c hc
    rw [List.any_eq_false] at h
    have := h c (List.mem_append_right _ hc)
    simpa using this

/-- C3 (counterexample): the segment of the small kernel has `p_filesz = 4` and
`p_memsz = 8`; memory holds 0xAA everywhere before the load and every call
succeeds.  After `LoadKernel` the byte at `p_paddr + 4`, inside the memory
image and beyond the file backed part, still reads 0xAA. -/
theorem LoadKernel_does_not_clear_tail :
    Elf64_Phdr.p_paddr (LoadKernel.table (sampleFirmware (fun _ => EFI_SUCCESS) smallKernel)
      ⟨dirtyMemory, 0, []⟩) 0 = 0x100000 ∧
    Elf64_Phdr.p_filesz (LoadKernel.table (sampleFirmware (fun _ => EFI_SUCCESS) smallKernel)
      ⟨dirtyMemory, 0, []⟩) 0 = 4 ∧
    Elf64_Phdr.p_memsz (LoadKernel.table (sampleFirmware (fun _ => EFI_SUCCESS) smallKernel)
      ⟨dirtyMemory, 0, []⟩) 0 = 8 ∧
    (LoadKernel (sampleFirmware (fun _ => EFI_SUCCESS) smallKernel)
      ⟨dirtyMemory, 0, []⟩).m.mem 0x100003 = 4 ∧
    (LoadKernel (sampleFirmware (fun _ => EFI_SUCCESS) smallKernel)
      ⟨dirtyMemory, 0, []⟩).m.mem 0x100004 = 0xAA ∧
    (LoadKernel (sampleFirmware (fun _ => EFI_SUCCESS) smallKernel)
      ⟨dirtyMemory, 0, []⟩).m.mem 0x100004 ≠ 0 := by
  refine ⟨by decide, by decide, by decide, by decide, by decide, by decide⟩

/-- C3 (amended): materializing a `PT_LOAD` segment leaves every byte at or after
`p_paddr + p_filesz` as it was, so the bytes at `p_paddr + p_filesz` up to
`p_paddr + p_memsz` keep their prior content; and over a whole run of
`LoadKernel` a byte onto which no segment read was directed holds what it held
before.  Nothing is zero filled. -/
theorem LoadKernel_keeps_bytes_beyond_file_part :
    (∀ (fw : Firmware) (At : Nat) (L : Loader) (a : Nat),
      Elf64_Phdr.p_paddr L.ProgramHeaders At + Elf64_Phdr.p_filesz L.ProgramHeaders At ≤ a →
      (LoadKernel.segment fw At L).m.mem a = L.m.mem a) ∧
    (∀ (fw : Firmware) (s : Machine) (a : Nat),
      ((LoadKernel fw s).m.calls.drop s.calls.length).any (Call.readsOnto a) = false →
      (LoadKernel fw s).m.mem a = s.mem a) :=
  ⟨fun fw At L a h => segment_frame fw At L a (Or.inr h), LoadKernel_frame⟩

theorem LoadKernel_keeps_bytes_beyond_file_part_witness :
    (LoadKernel.segment (sampleFirmware (fun _ => EFI_SUCCESS) smallKernel) 0 sampleLoader).m.mem
      0x100004 = sampleLoader.m.mem 0x100004 ∧
    (LoadKernel (sampleFirmware (fun _ => EFI_SUCCESS) smallKernel) ⟨dirtyMemory, 0, []⟩).m.mem
      0x100004 = dirtyMemory 0x100004 :=
  ⟨LoadKernel_keeps_bytes_beyond_file_part.1 (sampleFirmware (fun _ => EFI_SUCCESS) smallKernel)
      0 sampleLoader 0x100004 (by decide),
   LoadKernel_keeps_bytes_beyond_file_part.2 (sampleFirmware (fun _ => EFI_SUCCESS) smallKernel)
      ⟨dirtyMemory, 0, []⟩ 0x100004 (by decide)⟩

/-- C9 (counterexample): first, the firmware fails the page allocation of the small
kernel (the call made after 7 others) and the four file bytes are written to
`p_paddr` all the same; second, a segment with `p_filesz = 4` and `p_memsz = 0`
is materialized: zero pages are requested at 0x100000 and four bytes are
written there. -/
theorem LoadKernel_writes_outside_allocation :
    ((sampleFirmware (failingAt 7) smallKernel).status 7 ≠ EFI_SUCCESS ∧
      (LoadKernel (sampleFirmware (failingAt 7) smallKernel) ⟨dirtyMemory, 0, []⟩).m.calls =
        [Call.GetInfo 0, Call.AllocatePool 104, Call.GetInfo 104,
         Call.Read 64 Target.Header, Call.AllocatePool 56, Call.SetPosition 64,
         Call.Read 56 Target.ProgramHeaders, Call.AllocatePages 0x100000 1,
         Call.SetPosition 120, Call.Read 4 (Target.Physical 0x100000)] ∧
      dirtyMemory 0x100000 = 0xAA ∧
      (LoadKernel (sampleFirmware (failingAt 7) smallKernel) ⟨dirtyMemory, 0, []⟩).m.mem
        0x100000 = 1) ∧
    (Elf64_Phdr.p_filesz (LoadKernel.table (sampleFirmware (fun _ => EFI_SUCCESS)
        fileOnlyKernel) ⟨dirtyMemory, 0, []⟩) 0 = 4 ∧
      Elf64_Phdr.p_memsz (LoadKernel.table (sampleFirmware (fun _ => EFI_SUCCESS)
        fileOnlyKernel) ⟨dirtyMemory, 0, []⟩) 0 = 0 ∧
      allocations (LoadKernel (sampleFirmware (fun _ => EFI_SUCCESS) fileOnlyKernel)
        ⟨dirtyMemory, 0, []⟩).m.calls = [(0x100000, 0)] ∧
      (LoadKernel (sampleFirmware (fun _ => EFI_SUCCESS) fileOnlyKernel)
        ⟨dirtyMemory, 0, []⟩).m.mem 0x100000 = 1) := by
  refine ⟨⟨by decide, by decide, by decide, by decide⟩, by decide, by decide, by decide,
    by decide⟩

/-- C9 (amended): for a `PT_LOAD` descriptor the loader stores to physical memory
the bytes the segment read delivers, at most `p_filesz` of them, from `p_paddr`
on, and nothing else; when `p_filesz ≤ p_memsz` and `p_memsz + 4095 < 2^64`
every byte changed lies in the page range requested,
`[p_paddr, p_paddr + 4096 * PageCount)`; and when the seek and the read succeed
the bytes stored are the `p_filesz` bytes of the file at `p_offset` (as many as
the file has), whatever the status of the page allocation. -/
theorem segment_writes_file_bytes (fw : Firmware) (At : Nat) (L : Loader) :
    (LoadKernel.segment fw At L).m.mem =
      store L.m.mem (Elf64_Phdr.p_paddr L.ProgramHeaders At) (LoadKernel.segmentData fw At L) ∧
    (LoadKernel.segmentData fw At L).length ≤ Elf64_Phdr.p_filesz L.ProgramHeaders At ∧
    (Elf64_Phdr.p_filesz L.ProgramHeaders At ≤ Elf64_Phdr.p_memsz L.ProgramHeaders At →
      Elf64_Phdr.p_memsz L.ProgramHeaders At + 4095 < 2 ^ 64 →
      ∀ a, (LoadKernel.segment fw At L).m.mem a ≠ L.m.mem a →
        Elf64_Phdr.p_paddr L.ProgramHeaders At ≤ a ∧
        a < Elf64_Phdr.p_paddr L.ProgramHeaders At +
          4096 * LoadKernel.PageCount (Elf64_Phdr.p_memsz L.ProgramHeaders At)) ∧
    (fw.status (L.m.calls.length + 1) = EFI_SUCCESS →
      fw.status (L.m.calls.length + 2) = EFI_SUCCESS →
      LoadKernel.segmentData fw At L =
        (fw.file.drop (Elf64_Phdr.p_offset L.ProgramHeaders At)).take
          (Elf64_Phdr.p_filesz L.ProgramHeaders At)) := by
  refine ⟨segment_mem fw At L, segmentData_length fw At L, ?_, ?_⟩
  · intro hsz hov a hne
    have hp := (PageCount_ceil _ hov).2.1
    by_contra hout
    apply hne
    apply segment_frame
    omega
  · intro hseek hread
    have hlen : (L.m.log (Call.AllocatePages (Elf64_Phdr.p_paddr L.ProgramHeaders At)
        (LoadKernel.PageCount (Elf64_Phdr.p_memsz L.ProgramHeaders At)))).calls.length =
        L.m.calls.length + 1 := by
      rw [log_calls, List.length_append]
      rfl
    have hlen2 : (File.SetPosition fw (L.m.log (Call.AllocatePages
        (Elf64_Phdr.p_paddr L.ProgramHeaders At)
        (LoadKernel.PageCount (Elf64_Phdr.p_memsz L.ProgramHeaders At))))
        (Elf64_Phdr.p_offset L.ProgramHeaders At)).calls.length = L.m.calls.length + 2 := by
      rw [SetPosition_calls, List.length_append, hlen]
      rfl
    unfold LoadKernel.segmentData
    rw [Read_data fw _ _ _ (by rw [hlen2]; exact hread),
      SetPosition_pos fw _ _ (by rw [hlen]; exact hseek)]

theorem segment_writes_file_bytes_witness :
    0x100000 ≤ 0x100002 ∧ 0x100002 < 0x100000 + 4096 * LoadKernel.PageCount 8 :=
  (by decide : Elf64_Phdr.p_paddr sampleLoader.ProgramHeaders 0 = 0x100000) ▸
  (by decide : Elf64_Phdr.p_memsz sampleLoader.ProgramHeaders 0 = 8) ▸
  (segment_writes_file_bytes (sampleFirmware (fun _ => EFI_SUCCESS) smallKernel) 0
    sampleLoader).2.2.1 (by decide) (by decide) 0x100002 (by decide)

/-! ## Supporting facts: termination of the loop and the header as file content -/

/-- Once the iteration bound covers the distance to `Bytes`, a larger bound gives
the same result: the loop ends because `At` has reached `Bytes`. -/
theorem loop_fuel_irrelevant (fw : Firmware) (stride Bytes : Nat) (hs : 0 < stride)
    (fuel : Nat) :
    ∀ (At : Nat) (L : Loader), Bytes - At ≤ fuel → ∀ k,
      LoadKernel.loop fw stride Bytes (fuel + k) At L =
        LoadKernel.loop fw stride Bytes fuel At L := by
  induction fuel with
  | zero =>
    intro At L hf k
    cases k with
    | zero => rfl
    | succ j =>
      rw [Nat.zero_add, loop_succ, if_neg (by omega), loop_zero]
  | succ n ih =>
    intro At L hf k
    have e : n + 1 + k = (n + k) + 1 := by omega
    rw [e, loop_succ, loop_succ]
    by_cases hlt : At < Bytes
    · rw [if_pos hlt, if_pos hlt, ih (At + stride) _ (by omega) k]
    · rw [if_neg hlt, if_neg hlt]

/-- When the header read succeeds on a file of at least 64 bytes, positioned at its
start, the local `Header` holds the first 64 bytes of the file. -/
theorem header_from_file (fw : Firmware) (s : Machine)
    (hread : fw.status (s.calls.length + 3) = EFI_SUCCESS) (hpos : s.pos = 0)
    (hfile : sizeof_Elf64_Ehdr ≤ fw.file.length) :
    ∀ a, a < sizeof_Elf64_Ehdr → LoadKernel.Header fw s a = fw.file.getD a 0 := by
  have hlen : (((s.log (Call.GetInfo 0)).log (Call.AllocatePool fw.FileInfoSize)).log
      (Call.GetInfo fw.FileInfoSize)).calls.length = s.calls.length + 3 := by
    simp [log_calls]
  have hdata : (LoadKernel.headerRead fw s).2.2 = (fw.file.drop 0).take sizeof_Elf64_Ehdr := by
    unfold LoadKernel.headerRead
    rw [Read_data fw _ _ _ (by rw [hlen]; exact hread), log_pos, log_pos, log_pos, hpos]
  intro a ha
  unfold LoadKernel.Header
  have hl : (LoadKernel.headerRead fw s).2.2.length = sizeof_Elf64_Ehdr := by
    rw [hdata, List.length_take, List.length_drop]
    omega
  rw [store_inside _ _ _ _ (Nat.zero_le _) (by omega), Nat.sub_zero, hdata]
  simp only [List.drop_zero, List.getD_eq_getElem?_getD, List.getElem?_take, ha, if_true]

end Bootloader
